import Mathlib

set_option maxHeartbeats 1000000

/-!
Verification development for the bxc compiler front end.

The definitions below are a shallow embedding of the Python sources:
`bxlexer.py` (keyword classification), `bxparser.py` (the grammar actions
relevant to parenthesization, variable declaration tracking and block
representation), and `bxmunch.py` (the shared `Munch` traversal, the
`TopDownMunch` and `BottomUpMunch` lowering disciplines, the `TypeMunch`
type checker and the `SymbolTable`).  Machine-level data (instruction
records, diagnostics, munch state) is modelled with plain Lean structures;
Python's mutable muncher object becomes an explicitly threaded `MState`.
-/

namespace Bxc

/-- Operand of a TAC instruction: a temporary name or an integer literal,
mirroring the entries of the JSON `args` lists built in `bxmunch.py`
(temporary name strings, and Python ints for `const`). -/
inductive Arg where
  | t (name : String)
  | n (value : Int)
deriving DecidableEq, Repr

/-- One TAC instruction as emitted by both munchers in `bxmunch.py`:
`{"opcode": ..., "args": [...], "result": ...}`.  Jump targets and label
names travel in the `result` field, exactly as in the source. -/
structure Instr where
  opcode : String
  args : List Arg
  result : Option String
deriving DecidableEq, Repr

/-- Modelled from the spec: the diagnostics reporter (`bxerrors`, which is
not among the sources) accumulates reported messages in order (spec §4.1:
"each call increments a running error count and stores the message").
Each constructor tags one reporter call site of the sources by kind,
carrying the data interpolated into the Python message. -/
inductive Diag where
  | doubleDeclare (name : String)
  | undeclared (name : String)
  | breakOutsideLoop
  | continueOutsideLoop
  | noInstrFor (node : String)
  | typeMismatchAssign (dest src : String)
  | printExpectsInt (got : String)
  | typeErrUnOp (op got : String)
  | unknownUnOp (op : String)
  | typeErrBinOpInt (op l r : String)
  | typeErrBinOpBool (op l r : String)
  | typeErrBinOpEq (op l r : String)
  | unknownBinOp (op : String)
  | noVisitorFor (node : String)
  | parserDoubleDeclare (name : String)
deriving DecidableEq, Repr

/-- Abnormal termination of a traversal.  `attributeError` models Python
raising `AttributeError` (e.g. `node.position` on a raw list in
`generic_visit`); `typeError` models Python raising `TypeError` (e.g. the
shared visitors calling `emit(opcode, args, result)` against
`BottomUpMunch.emit(self, instructions)`); `exitOne` models `exit(1)`. -/
inductive Crash where
  | attributeError
  | typeError
  | exitOne
deriving DecidableEq, Repr

/-- The mutable state of a `Munch` object (`bxmunch.py`, `Munch.__init__`):
temp and label counters, the shared instruction list, the symbol-table
scope stack, the loop-label stack, and the reporter's accumulated
diagnostics.  The Python code keeps the innermost scope and the innermost
loop at the END of its lists (`scopes[-1]`, `loop_stack[-1]`, iteration by
`reversed`); here both stacks keep the innermost element at the HEAD,
which is the same stack read through the standard list isomorphism. -/
structure MState where
  temps : Nat := 0
  labels : Nat := 0
  instrs : List Instr := []
  scopes : List (List (String × String)) := [[]]
  loops : List (String × String) := []
  diags : List Diag := []
deriving DecidableEq, Repr

/-- A fresh muncher state: counters zero, one empty scope (`SymbolTable.__init__`). -/
def initState : MState := {}

/-- `Munch.new_temp`: the name `f"%{self.temp_counter}"`. -/
def tempName (n : Nat) : String := "%" ++ toString n

/-- `Munch.fresh_label`: the name `f".{base}{self.label_counter}"`. -/
def labelName (base : String) (n : Nat) : String := "." ++ base ++ toString n

/-- `Munch.new_temp`: hand out the next temporary and bump the counter. -/
def newTemp (s : MState) : String × MState :=
  (tempName s.temps, { s with temps := s.temps + 1 })

/-- `Munch.fresh_label`: hand out the next label and bump the counter. -/
def freshLabel (base : String) (s : MState) : String × MState :=
  (labelName base s.labels, { s with labels := s.labels + 1 })

/-- One call of the reporter: append the diagnostic. -/
def report (s : MState) (d : Diag) : MState := { s with diags := s.diags ++ [d] }

/-- `TopDownMunch.emit`: append one instruction to the shared list. -/
def emit1 (s : MState) (i : Instr) : MState := { s with instrs := s.instrs ++ [i] }

/-- `BottomUpMunch.emit`: extend the shared list with a local list. -/
def emitL (s : MState) (l : List Instr) : MState := { s with instrs := s.instrs ++ l }

/-- Instruction builders matching the dict literals of `bxmunch.py`. -/
def mkConst (v : Int) (r : String) : Instr := ⟨"const", [.n v], some r⟩

def mkCopy (x r : String) : Instr := ⟨"copy", [.t x], some r⟩

def mkPrint (x : String) : Instr := ⟨"print", [.t x], none⟩

def mkLabel (l : String) : Instr := ⟨"label", [], some l⟩

def mkJmp (l : String) : Instr := ⟨"jmp", [], some l⟩

def mkJz (x l : String) : Instr := ⟨"jz", [.t x], some l⟩

def mkJnz (x l : String) : Instr := ⟨"jnz", [.t x], some l⟩

def mkUn (op x r : String) : Instr := ⟨op, [.t x], some r⟩

def mkBin (op x y r : String) : Instr := ⟨op, [.t x, .t y], some r⟩

/-- `SymbolTable` scope entry lookup (membership in one Python dict). -/
def scopeLookup : List (String × String) → String → Option String
  | [], _ => none
  | (k, v) :: rest, n => if k = n then some v else scopeLookup rest n

/-- `SymbolTable.lookup`: innermost scope first, first match wins. -/
def lookupVar : List (List (String × String)) → String → Option String
  | [], _ => none
  | sc :: rest, n =>
    match scopeLookup sc n with
    | some v => some v
    | none => lookupVar rest n

/-- `SymbolTable.declare`: fail if the name is already in the current
(innermost) scope, otherwise bind it there. -/
def declareVar (scopes : List (List (String × String))) (n v : String) :
    Option (List (List (String × String))) :=
  match scopes with
  | [] => none
  | sc :: rest =>
    if (scopeLookup sc n).isSome then none else some (((n, v) :: sc) :: rest)

/-- `SymbolTable.push_scope`. -/
def pushScope (s : MState) : MState := { s with scopes := [] :: s.scopes }

/-- `SymbolTable.pop_scope`. -/
def popScope (s : MState) : MState := { s with scopes := s.scopes.tail }

/-- `fitting_type` from `bxmunch.py`. -/
def fittingType (dest expr : String) : Bool := dest == expr

/-- The `op_map` dict of `bxmunch.py`; `op_map.get(x, x)` semantics. -/
def opMap : String → String
  | "opposite" => "neg"
  | "bitwise-negation" => "not"
  | "boolean-not" => "not"
  | "addition" => "add"
  | "subtraction" => "sub"
  | "multiplication" => "mul"
  | "division" => "div"
  | "modulus" => "mod"
  | "bitwise-and" => "and"
  | "bitwise-or" => "or"
  | "bitwise-xor" => "xor"
  | "logical-left-shift" => "shl"
  | "logical-right-shift" => "shr"
  | "boolean-eq" => "z"
  | "boolean-noneq" => "nz"
  | "boolean-less" => "l"
  | "boolean-lesseq" => "le"
  | "boolean-great" => "g"
  | "boolean-greateq" => "ge"
  | "boolean-and" => "&&"
  | "boolean-or" => "||"
  | other => other

/-- The six comparison tags grouped together by both `visit_EBinOp`s. -/
def isCmpOp (s : String) : Bool :=
  s == "boolean-eq" || s == "boolean-noneq" || s == "boolean-less" ||
  s == "boolean-lesseq" || s == "boolean-great" || s == "boolean-greateq"

/-- The fourteen tags of `TypeMunch.visit_EBinOp`'s first match arm. -/
def isIntBinOp (s : String) : Bool :=
  s == "addition" || s == "subtraction" || s == "multiplication" ||
  s == "division" || s == "modulus" || s == "bitwise-and" ||
  s == "bitwise-or" || s == "bitwise-xor" || s == "logical-left-shift" ||
  s == "logical-right-shift" || s == "boolean-less" || s == "boolean-lesseq" ||
  s == "boolean-great" || s == "boolean-greateq"

/-- The four relational tags that get result type bool in that arm. -/
def isRelOp (s : String) : Bool :=
  s == "boolean-less" || s == "boolean-lesseq" ||
  s == "boolean-great" || s == "boolean-greateq"

/-- Expression nodes of `bxast.py`.  `EPar` is kept because both munchers
define `visit_EPar` (the parser itself never builds one: `p_expr_parens`
returns the inner expression). -/
inductive Expr where
  | EVar (name : String)
  | ENum (value : Int)
  | EBool (value : Bool)
  | EUnOp (unop : String) (rvalue : Expr)
  | EBinOp (binop : String) (lvalue rvalue : Expr)
  | EPar (value : Expr)
deriving DecidableEq, Repr

/-- Statement-level nodes as the parser actually produces them.  The
`S...` constructors are the dataclasses of `bxast.py`.  `NList` models a
raw Python list used as a statement: `p_stmt_block` passes the block's
plain statement list through (`p[0] = p[1]` over `block : LCB stmts RCB`),
so a bare nested block is a `list`, not an `SBlock`; only `while`/`if`
bodies get wrapped in `SBlock` by the parser. -/
inductive Node where
  | SVarDecl (name ty : String) (rvalue : Expr)
  | SAssignment (name : String) (rvalue : Expr)
  | SPrint (value : Expr)
  | SBlock (statements : List Node)
  | SWhile (condition : Expr) (body : Node)
  | SIfElse (condition : Expr) (ifBlock : Node) (elseBlock : Option Node)
  | SBreak
  | SContinue
  | NList (items : List Node)

/-- `type(node).__name__` for expressions (used in reporter messages). -/
def exprName : Expr → String
  | .EVar _ => "EVar"
  | .ENum _ => "ENum"
  | .EBool _ => "EBool"
  | .EUnOp _ _ => "EUnOp"
  | .EBinOp _ _ _ => "EBinOp"
  | .EPar _ => "EPar"

/-- `type(node).__name__` for statement-level nodes. -/
def nodeName : Node → String
  | .SVarDecl _ _ _ => "SVarDecl"
  | .SAssignment _ _ => "SAssignment"
  | .SPrint _ => "SPrint"
  | .SBlock _ => "SBlock"
  | .SWhile _ _ => "SWhile"
  | .SIfElse _ _ _ => "SIfElse"
  | .SBreak => "SBreak"
  | .SContinue => "SContinue"
  | .NList _ => "list"

/-- `TopDownMunch` expression visitors (`visit_EVar` .. `visit_EPar`).
Each visit returns the value temporary and appends its instructions
directly to the shared list, exactly as in the source.  In `visit_EUnOp`
the result temporary is allocated after the operand's visit; in the
short-circuit arms of `visit_EBinOp` the two temporaries and the end label
are allocated before the children are visited, and visiting a child emits
its code before the enclosing `copy` is appended (Python evaluates
`self.visit(node.lvalue)` while building `emit`'s argument list). -/
def tdExpr : Expr → MState → String × MState
  | .EVar n, s =>
    match lookupVar s.scopes n with
    | some t => (t, s)
    | none => newTemp (report s (.undeclared n))
  | .ENum v, s =>
    let p := newTemp s
    (p.1, emit1 p.2 (mkConst v p.1))
  | .EBool b, s =>
    let p := newTemp s
    (p.1, emit1 p.2 (mkConst (if b then 1 else 0) p.1))
  | .EUnOp op e, s =>
    let r := tdExpr e s
    let p := newTemp r.2
    if op = "boolean-not" then
      let q := freshLabel "end_not" p.2
      (p.1, emitL q.2 [mkConst 0 p.1, mkJz r.1 q.1, mkConst 1 p.1, mkLabel q.1])
    else
      (p.1, emit1 p.2 (mkUn (opMap op) r.1 p.1))
  | .EBinOp op a b, s =>
    if op = "boolean-and" then
      let p1 := newTemp s
      let p2 := newTemp p1.2
      let q := freshLabel "end_and" p2.2
      let s1 := emitL q.2 [mkConst 1 p1.1, mkConst 1 p2.1]
      let ra := tdExpr a s1
      let s2 := emitL ra.2 [mkCopy ra.1 p1.1, mkJz p1.1 q.1]
      let rb := tdExpr b s2
      (p1.1, emitL rb.2
        [mkCopy rb.1 p2.1, mkLabel q.1, mkBin "and" p1.1 p2.1 p1.1])
    else if op = "boolean-or" then
      let p1 := newTemp s
      let p2 := newTemp p1.2
      let q := freshLabel "end_or" p2.2
      let s1 := emitL q.2 [mkConst 0 p1.1, mkConst 0 p2.1]
      let ra := tdExpr a s1
      let s2 := emitL ra.2 [mkCopy ra.1 p1.1, mkJnz p1.1 q.1]
      let rb := tdExpr b s2
      (p1.1, emitL rb.2
        [mkCopy rb.1 p2.1, mkLabel q.1, mkBin "or" p1.1 p2.1 p1.1])
    else if isCmpOp op then
      let ra := tdExpr a s
      let rb := tdExpr b ra.2
      let p := newTemp rb.2
      let s1 := emit1 p.2 (mkBin "sub" ra.1 rb.1 p.1)
      let qf := freshLabel "false" s1
      let qt := freshLabel "true" qf.2
      (p.1, emitL qt.2
        [mkUn ("j" ++ opMap op) p.1 qt.1, mkConst 0 p.1, mkJmp qf.1,
         mkLabel qt.1, mkConst 1 p.1, mkLabel qf.1])
    else
      let ra := tdExpr a s
      let rb := tdExpr b ra.2
      let p := newTemp rb.2
      (p.1, emit1 p.2 (mkBin (opMap op) ra.1 rb.1 p.1))
  | .EPar e, s => tdExpr e s

/-- Sequencing of traversal steps: an uncaught Python exception aborts
the rest of the traversal, otherwise the next step runs on the resulting
state. -/
def andThen (r : MState × Option Crash) (f : MState → MState × Option Crash) :
    MState × Option Crash :=
  match r with
  | (s, none) => f s
  | r => r

/- `TopDownMunch` statement traversal (the shared `Munch` statement
visitors plus the top-down overrides).  A crash value models an uncaught
Python exception ending the process; `visit_SWhile` pushes onto the loop
stack and — exactly like the source — never pops it.  A raw list node
reaches `generic_visit`, whose f-string evaluates `node.position` on a
`list` and raises `AttributeError` before the reporter is called. -/
mutual

def tdStmt : Node → MState → MState × Option Crash
  | .SVarDecl n _ty rv, s =>
    let p := newTemp s
    match declareVar p.2.scopes n p.1 with
    | none => (report p.2 (.doubleDeclare n), none)
    | some sc =>
      let s1 : MState := { p.2 with scopes := sc }
      match lookupVar s1.scopes n with
      | none => (report s1 (.undeclared n), none)
      | some v =>
        let r := tdExpr rv s1
        (emit1 r.2 (mkCopy r.1 v), none)
  | .SAssignment n rv, s =>
    match lookupVar s.scopes n with
    | none => (report s (.undeclared n), none)
    | some v =>
      let r := tdExpr rv s
      (emit1 r.2 (mkCopy r.1 v), none)
  | .SPrint e, s =>
    let r := tdExpr e s
    (emit1 r.2 (mkPrint r.1), none)
  | .SBlock l, s =>
    andThen (tdStmts l (pushScope s)) (fun s1 => (popScope s1, none))
  | .SWhile c b, s =>
    let ls := freshLabel "start_while" s
    let le := freshLabel "end_while" ls.2
    let s1 : MState := { le.2 with loops := (ls.1, le.1) :: le.2.loops }
    let s2 := emit1 s1 (mkLabel ls.1)
    let rc := tdExpr c s2
    let s3 := emit1 rc.2 (mkJz rc.1 le.1)
    andThen (tdStmt b s3)
      (fun s4 => (emitL s4 [mkJmp ls.1, mkLabel le.1], none))
  | .SIfElse c ib eb, s =>
    let rc := tdExpr c s
    let lelse := freshLabel "else" rc.2
    let lend := freshLabel "end_if" lelse.2
    let s1 := emit1 lend.2 (mkJz rc.1 lelse.1)
    andThen (tdStmt ib s1) (fun s2 =>
      let s3 := emit1 s2 (mkJmp lend.1)
      let s4 := emit1 s3 (mkLabel lelse.1)
      match eb with
      | some e =>
        andThen (tdStmt e s4) (fun s5 => (emit1 s5 (mkLabel lend.1), none))
      | none => (emit1 s4 (mkLabel lend.1), none))
  | .SBreak, s =>
    match s.loops with
    | [] => (report s .breakOutsideLoop, none)
    | (_, le) :: _ => (emit1 s (mkJmp le), none)
  | .SContinue, s =>
    match s.loops with
    | [] => (report s .continueOutsideLoop, none)
    | (ls, _) :: _ => (emit1 s (mkJmp ls), none)
  | .NList _, s => (s, some .attributeError)

def tdStmts : List Node → MState → MState × Option Crash
  | [], s => (s, none)
  | n :: rest, s => andThen (tdStmt n s) (tdStmts rest)

end

/-- `Munch.generate_code` for the tree shape the parser hands over: the
program's top-level block is a plain list, iterated directly (no scope
push or pop around it). -/
def tdGenerate (tree : List Node) (s : MState) : MState × Option Crash :=
  tdStmts tree s

/-- The `BottomUpMunch.visit` wrapper applied to an expression visit
result: when the local instruction list is empty, it reports
"No instructions generated for ..." and hands the pair through. -/
def buWrapE (name : String) (r : (String × List Instr) × MState) :
    (String × List Instr) × MState :=
  if r.1.2.isEmpty then (r.1, report r.2 (.noInstrFor name)) else r

/-- `BottomUpMunch` expression visitors: each returns the value temporary
together with the LOCAL list of instructions computing it, touching the
shared list not at all.  Children are reached through `self.visit`, i.e.
through the wrapper.  `visit_EVar` returns an empty local list;
`visit_EPar` returns the wrapped child result unchanged. -/
def buExprRaw : Expr → MState → (String × List Instr) × MState
  | .EVar n, s =>
    match lookupVar s.scopes n with
    | some t => ((t, []), s)
    | none =>
      let p := newTemp (report s (.undeclared n))
      ((p.1, []), p.2)
  | .ENum v, s =>
    let p := newTemp s
    ((p.1, [mkConst v p.1]), p.2)
  | .EBool b, s =>
    let p := newTemp s
    ((p.1, [mkConst (if b then 1 else 0) p.1]), p.2)
  | .EUnOp op e, s =>
    let r := buWrapE (exprName e) (buExprRaw e s)
    let p := newTemp r.2
    if op = "boolean-not" then
      let q := freshLabel "end_not" p.2
      ((p.1, r.1.2 ++ [mkConst 0 p.1, mkJz r.1.1 q.1, mkConst 1 p.1, mkLabel q.1]), q.2)
    else
      ((p.1, r.1.2 ++ [mkUn (opMap op) r.1.1 p.1]), p.2)
  | .EBinOp op a b, s =>
    if op = "boolean-and" then
      let p1 := newTemp s
      let p2 := newTemp p1.2
      let q := freshLabel "end_and" p2.2
      let ra := buWrapE (exprName a) (buExprRaw a q.2)
      let rb := buWrapE (exprName b) (buExprRaw b ra.2)
      ((p1.1,
        [mkConst 1 p1.1, mkConst 1 p2.1] ++
        ra.1.2 ++ [mkCopy ra.1.1 p1.1] ++ [mkJz p1.1 q.1] ++
        rb.1.2 ++ [mkCopy rb.1.1 p2.1] ++
        [mkLabel q.1] ++ [mkBin "and" p1.1 p2.1 p1.1]), rb.2)
    else if op = "boolean-or" then
      let p1 := newTemp s
      let p2 := newTemp p1.2
      let q := freshLabel "end_or" p2.2
      let ra := buWrapE (exprName a) (buExprRaw a q.2)
      let rb := buWrapE (exprName b) (buExprRaw b ra.2)
      ((p1.1,
        [mkConst 0 p1.1, mkConst 0 p2.1] ++
        ra.1.2 ++ [mkCopy ra.1.1 p1.1] ++ [mkJnz p1.1 q.1] ++
        rb.1.2 ++ [mkCopy rb.1.1 p2.1] ++
        [mkLabel q.1] ++ [mkBin "or" p1.1 p2.1 p1.1]), rb.2)
    else if isCmpOp op then
      let ra := buWrapE (exprName a) (buExprRaw a s)
      let rb := buWrapE (exprName b) (buExprRaw b ra.2)
      let p := newTemp rb.2
      let qf := freshLabel "false" p.2
      let qt := freshLabel "true" qf.2
      ((p.1,
        ra.1.2 ++ rb.1.2 ++ [mkBin "sub" ra.1.1 rb.1.1 p.1] ++
        [mkUn ("j" ++ opMap op) p.1 qt.1, mkConst 0 p.1, mkJmp qf.1,
         mkLabel qt.1, mkConst 1 p.1, mkLabel qf.1]), qt.2)
    else
      let ra := buWrapE (exprName a) (buExprRaw a s)
      let rb := buWrapE (exprName b) (buExprRaw b ra.2)
      let p := newTemp rb.2
      ((p.1, ra.1.2 ++ rb.1.2 ++ [mkBin (opMap op) ra.1.1 rb.1.1 p.1]), p.2)
  | .EPar e, s => buWrapE (exprName e) (buExprRaw e s)

/-- `BottomUpMunch.visit` on an expression: the raw visitor result passed
through the empty-list validation. -/
def buVisitE (e : Expr) (s : MState) : (String × List Instr) × MState :=
  buWrapE (exprName e) (buExprRaw e s)

/- `BottomUpMunch` statement traversal.  The statement visitors that the
class overrides (`assign_or_declare`, `visit_SPrint`) commit the local
lists to the shared sequence; the SHARED control-flow visitors
(`visit_SWhile`, `visit_SIfElse`, `visit_SBreak`, `visit_SContinue`) call
`self.emit(opcode, args, result)` with three arguments, which Python
rejects against `BottomUpMunch.emit(self, instructions)` with a
`TypeError` — the crash points below sit exactly where the first such
`emit` call occurs in the source.  `buStmts` interleaves the `visit`
wrapper, which fires the empty-list validation after every completed
statement visit (statement visitors return `None`, coerced to `(None, [])`). -/
mutual

def buStmtRaw : Node → MState → MState × Option Crash
  | .SVarDecl n _ty rv, s =>
    let p := newTemp s
    match declareVar p.2.scopes n p.1 with
    | none => (report p.2 (.doubleDeclare n), none)
    | some sc =>
      let s1 : MState := { p.2 with scopes := sc }
      match lookupVar s1.scopes n with
      | none => (report s1 (.undeclared n), none)
      | some v =>
        let r := buVisitE rv s1
        (emitL r.2 (r.1.2 ++ [mkCopy r.1.1 v]), none)
  | .SAssignment n rv, s =>
    match lookupVar s.scopes n with
    | none => (report s (.undeclared n), none)
    | some v =>
      let r := buVisitE rv s
      (emitL r.2 (r.1.2 ++ [mkCopy r.1.1 v]), none)
  | .SPrint e, s =>
    let r := buVisitE e s
    (emitL r.2 (r.1.2 ++ [mkPrint r.1.1]), none)
  | .SBlock l, s =>
    andThen (buStmts l (pushScope s)) (fun s1 => (popScope s1, none))
  | .SWhile _c _b, s =>
    let ls := freshLabel "start_while" s
    let le := freshLabel "end_while" ls.2
    ({ le.2 with loops := (ls.1, le.1) :: le.2.loops }, some .typeError)
  | .SIfElse c _ib _eb, s =>
    let rc := buVisitE c s
    let lelse := freshLabel "else" rc.2
    let lend := freshLabel "end_if" lelse.2
    (lend.2, some .typeError)
  | .SBreak, s =>
    match s.loops with
    | [] => (report s .breakOutsideLoop, none)
    | _ :: _ => (s, some .typeError)
  | .SContinue, s =>
    match s.loops with
    | [] => (report s .continueOutsideLoop, none)
    | _ :: _ => (s, some .typeError)
  | .NList _, s => (s, some .attributeError)

def buStmts : List Node → MState → MState × Option Crash
  | [], s => (s, none)
  | n :: rest, s =>
    andThen (buStmtRaw n s)
      (fun s1 => buStmts rest (report s1 (.noInstrFor (nodeName n))))

end

/-- `BottomUpMunch.visit` on one statement: the raw visit followed by the
wrapper's empty-list validation (a completed statement visit returns
`None`, so the validation always reports). -/
def buVisitS (n : Node) (s : MState) : MState × Option Crash :=
  andThen (buStmtRaw n s)
    (fun s1 => (report s1 (.noInstrFor (nodeName n)), none))

/-- `Munch.generate_code` for the bottom-up muncher. -/
def buGenerate (tree : List Node) (s : MState) : MState × Option Crash :=
  buStmts tree s

/-- `TypeMunch` expression visitors: each returns the resolved type, or
`none` after a reported error.  Faithful to the source: both operands of a
binary operation are visited before either is inspected. -/
def tcExpr : Expr → MState → Option String × MState
  | .EVar n, s =>
    match lookupVar s.scopes n with
    | some t => (some t, s)
    | none => (none, report s (.undeclared n))
  | .ENum _, s => (some "int", s)
  | .EBool _, s => (some "bool", s)
  | .EUnOp op e, s =>
    let r := tcExpr e s
    match r.1 with
    | none => (none, r.2)
    | some rt =>
      if op = "opposite" ∨ op = "bitwise-negation" then
        if rt ≠ "int" then (none, report r.2 (.typeErrUnOp op rt))
        else (some "int", r.2)
      else if op = "boolean-not" then
        if rt ≠ "bool" then (none, report r.2 (.typeErrUnOp op rt))
        else (some "bool", r.2)
      else (none, report r.2 (.unknownUnOp op))
  | .EBinOp op a b, s =>
    let ra := tcExpr a s
    let rb := tcExpr b ra.2
    match ra.1, rb.1 with
    | some lt, some rt =>
      if isIntBinOp op then
        if lt ≠ "int" ∨ rt ≠ "int" then
          (none, report rb.2 (.typeErrBinOpInt op lt rt))
        else (some (if isRelOp op then "bool" else "int"), rb.2)
      else if op = "boolean-and" ∨ op = "boolean-or" then
        if lt ≠ "bool" ∨ rt ≠ "bool" then
          (none, report rb.2 (.typeErrBinOpBool op lt rt))
        else (some "bool", rb.2)
      else if op = "boolean-eq" ∨ op = "boolean-noneq" then
        if lt ≠ rt then (none, report rb.2 (.typeErrBinOpEq op lt rt))
        else (some "bool", rb.2)
      else (none, report rb.2 (.unknownBinOp op))
    | _, _ => (none, rb.2)
  | .EPar e, s => tcExpr e s

/- `TypeMunch` statement traversal: the shared `Munch` control-flow
visitors with `emit` a no-op (so label counters still advance and the
loop stack is still pushed and never popped), plus `TypeMunch`'s own
`handle_decl_or_assign`, `assign_or_declare` and `visit_SPrint`.  A raw
list node reaches `generic_visit` and raises `AttributeError` exactly as
in the lowering munchers. -/
mutual

def tcStmt : Node → MState → MState × Option Crash
  | .SVarDecl n ty rv, s =>
    match declareVar s.scopes n ty with
    | none => (report s (.doubleDeclare n), none)
    | some sc =>
      let s1 : MState := { s with scopes := sc }
      match lookupVar s1.scopes n with
      | none => (report s1 (.undeclared n), none)
      | some v =>
        let r := tcExpr rv s1
        match r.1 with
        | none => (r.2, none)
        | some rt =>
          if fittingType v rt then (r.2, none)
          else (report r.2 (.typeMismatchAssign v rt), none)
  | .SAssignment n rv, s =>
    match lookupVar s.scopes n with
    | none => (report s (.undeclared n), none)
    | some v =>
      let r := tcExpr rv s
      match r.1 with
      | none => (r.2, none)
      | some rt =>
        if fittingType v rt then (r.2, none)
        else (report r.2 (.typeMismatchAssign v rt), none)
  | .SPrint e, s =>
    let r := tcExpr e s
    match r.1 with
    | none => (r.2, none)
    | some t =>
      if t = "int" then (r.2, none) else (report r.2 (.printExpectsInt t), none)
  | .SBlock l, s =>
    andThen (tcStmts l (pushScope s)) (fun s1 => (popScope s1, none))
  | .SWhile c b, s =>
    let ls := freshLabel "start_while" s
    let le := freshLabel "end_while" ls.2
    let s1 : MState := { le.2 with loops := (ls.1, le.1) :: le.2.loops }
    let rc := tcExpr c s1
    tcStmt b rc.2
  | .SIfElse c ib eb, s =>
    let rc := tcExpr c s
    let lelse := freshLabel "else" rc.2
    let lend := freshLabel "end_if" lelse.2
    andThen (tcStmt ib lend.2) (fun s1 =>
      match eb with
      | some e => tcStmt e s1
      | none => (s1, none))
  | .SBreak, s =>
    match s.loops with
    | [] => (report s .breakOutsideLoop, none)
    | _ :: _ => (s, none)
  | .SContinue, s =>
    match s.loops with
    | [] => (report s .continueOutsideLoop, none)
    | _ :: _ => (s, none)
  | .NList _, s => (s, some .attributeError)

def tcStmts : List Node → MState → MState × Option Crash
  | [], s => (s, none)
  | n :: rest, s => andThen (tcStmt n s) (tcStmts rest)

end

/-- The type-checking pass over the parser's top-level statement list. -/
def tcGenerate (tree : List Node) (s : MState) : MState × Option Crash :=
  tcStmts tree s

/-- The `Lexer.keywords` dict of `bxlexer.py`: `{x: x.upper() for x in
('def', 'int', 'main', 'print', 'var')}` — these five spellings and no
others. -/
def lexerKeywords : List (String × String) :=
  [("def", "DEF"), ("int", "INT"), ("main", "MAIN"), ("print", "PRINT"),
   ("var", "VAR")]

/-- `Lexer.t_IDENT`: after the general identifier regexp matches, the
token type is `self.keywords.get(t.value, 'IDENT')`. -/
def identTokenType (s : String) : String :=
  (lexerKeywords.lookup s).getD "IDENT"

/-- The thirteen keyword spellings of the grammar surface (spec §6 and the
token names referenced by the `p_...` docstrings of `bxparser.py`). -/
def grammarSurfaceKeywords : List String :=
  ["def", "main", "var", "print", "if", "else", "while", "break",
   "continue", "int", "bool", "true", "false"]

/-- The token regexps `t_LPAREN` / `t_RPAREN` of `bxlexer.py`: the
parenthesis characters and their token names. -/
def punctToken : String → String
  | "(" => "LPAREN"
  | ")" => "RPAREN"
  | other => other

/-- The grammar production in the docstring of `Parser.p_expr_parens`:
`expr : LPAREN expr LPAREN` (sic — the closing symbol is LPAREN). -/
def pExprParensSymbols : List String := ["LPAREN", "expr", "LPAREN"]

/-- Whether a (terminal, reduced-expr, terminal) token shape matches the
`p_expr_parens` production. -/
def matchesParensRule (ts : List String) : Bool := ts == pExprParensSymbols

/-- The semantic action of `p_expr_parens`: `p[0] = p[2]`, the inner
expression unchanged. -/
def pExprParensAction (inner : Expr) : Expr := inner

/-- The `p_stmt_vardecl` action of `bxparser.py` over the variable names
of the declarations in the order their productions reduce (source order):
the parser keeps one flat `self.names` dict for the whole file, reports
"Double declare" whenever a name is already present, and then stores the
name regardless.  Returns the final name set and the number of
double-declare reports. -/
def parserDeclFold : List String → List String → List String × Nat
  | seen, [] => (seen, 0)
  | seen, n :: rest =>
    if n ∈ seen then
      let r := parserDeclFold seen rest
      (r.1, r.2 + 1)
    else
      parserDeclFold (n :: seen) rest

/-- Number of parse-time "Double declare" diagnostics for a given
declaration-name sequence. -/
def parserDoubleDeclCount (names : List String) : Nat :=
  (parserDeclFold [] names).2

/- The variable-declaration names of a parsed tree in source order (the
order in which the `p_stmt_vardecl` reductions fire). -/
mutual

def declsOfS : Node → List String
  | .SVarDecl n _ _ => [n]
  | .SAssignment _ _ => []
  | .SPrint _ => []
  | .SBlock l => declsOfL l
  | .SWhile _ b => declsOfS b
  | .SIfElse _ ib eb => declsOfS ib ++ declsOfO eb
  | .SBreak => []
  | .SContinue => []
  | .NList l => declsOfL l

def declsOfO : Option Node → List String
  | some n => declsOfS n
  | none => []

def declsOfL : List Node → List String
  | [] => []
  | n :: rest => declsOfS n ++ declsOfL rest

end

/- Statements free of control flow: no while, if/else, break or continue,
and no raw-list node (the fragment on which both lowering disciplines run
to completion). -/
mutual

def straightLineS : Node → Bool
  | .SVarDecl _ _ _ => true
  | .SAssignment _ _ => true
  | .SPrint _ => true
  | .SBlock l => straightLineL l
  | .SWhile _ _ => false
  | .SIfElse _ _ _ => false
  | .SBreak => false
  | .SContinue => false
  | .NList _ => false

def straightLineL : List Node → Bool
  | [] => true
  | n :: rest => straightLineS n && straightLineL rest

end

/- Trees containing no raw-list (`NList`) node anywhere: the only node
shape that reaches `generic_visit` and crashes the traversal. -/
mutual

def noBareListS : Node → Bool
  | .SVarDecl _ _ _ => true
  | .SAssignment _ _ => true
  | .SPrint _ => true
  | .SBlock l => noBareListL l
  | .SWhile _ b => noBareListS b
  | .SIfElse _ ib eb => noBareListS ib && noBareListO eb
  | .SBreak => true
  | .SContinue => true
  | .NList _ => false

def noBareListO : Option Node → Bool
  | some n => noBareListS n
  | none => true

def noBareListL : List Node → Bool
  | [] => true
  | n :: rest => noBareListS n && noBareListL rest

end

/-- Expressions that are a variable reference possibly wrapped in
parentheses — exactly the expressions whose bottom-up visit yields an
empty local instruction list. -/
def isVarCore : Expr → Bool
  | .EVar _ => true
  | .EPar e => isVarCore e
  | _ => false

/-- The program of spec §8's shadowing property,
`{ var x = 1:int; { var x = 2:int; print(x); } print(x); }`, in the shape
`bxparser.py` actually produces: the top-level block is a plain statement
list and the bare nested block is a raw list (`NList`). -/
def c5prog : List Node :=
  [.SVarDecl "x" "int" (.ENum 1),
   .NList [.SVarDecl "x" "int" (.ENum 2), .SPrint (.EVar "x")],
   .SPrint (.EVar "x")]

/-- Environment of a TAC execution: latest binding of each temporary. -/
def lookupEnv (env : List (String × Int)) (x : String) : Int :=
  match env.lookup x with
  | some v => v
  | none => 0

/-- Index of the `label` instruction carrying a given label name. -/
def findLabel (prog : List Instr) (l : String) : Option Nat :=
  prog.findIdx? (fun i => i.opcode == "label" && i.result == some l)

/-- A small executable semantics for the emitted TAC fragment used by the
boolean-not lowering: `const`, `copy`, `label`, `jmp`, `jz`, `jnz` and
`print`; fuel-indexed, `none` on fuel exhaustion, a missing label, or an
opcode outside this fragment. -/
def tacRun : Nat → List Instr → Nat → List (String × Int) →
    Option (List (String × Int))
  | 0, _, _, _ => none
  | fuel + 1, prog, pc, env =>
    match prog[pc]? with
    | none => some env
    | some i =>
      match i.opcode, i.args, i.result with
      | "const", [.n v], some r => tacRun fuel prog (pc + 1) ((r, v) :: env)
      | "copy", [.t x], some r =>
        tacRun fuel prog (pc + 1) ((r, lookupEnv env x) :: env)
      | "label", [], some _ => tacRun fuel prog (pc + 1) env
      | "jmp", [], some l =>
        match findLabel prog l with
        | some j => tacRun fuel prog (j + 1) env
        | none => none
      | "jz", [.t x], some l =>
        if lookupEnv env x = 0 then
          match findLabel prog l with
          | some j => tacRun fuel prog (j + 1) env
          | none => none
        else tacRun fuel prog (pc + 1) env
      | "jnz", [.t x], some l =>
        if lookupEnv env x ≠ 0 then
          match findLabel prog l with
          | some j => tacRun fuel prog (j + 1) env
          | none => none
        else tacRun fuel prog (pc + 1) env
      | "print", [.t _], none => tacRun fuel prog (pc + 1) env
      | _, _, _ => none

/-- Run a TAC fragment from its first instruction with an empty
environment and generous fuel. -/
def runTac (prog : List Instr) : Option (List (String × Int)) :=
  tacRun (prog.length * prog.length + prog.length + 1) prog 0 []

/-- Number of break/continue-outside-loop diagnostics in a report list. -/
def countBOC (l : List Diag) : Nat :=
  l.countP (fun d =>
    match d with
    | .breakOutsideLoop => true
    | .continueOutsideLoop => true
    | _ => false)

/-- Number of empty-list-validation diagnostics in a report list. -/
def countNoInstr (l : List Diag) : Nat :=
  l.countP (fun d =>
    match d with
    | .noInstrFor _ => true
    | _ => false)

/-- Agreement of two muncher states on everything except the shared
instruction list and the diagnostics: same counters, same scopes, same
loop stack.  This is the simulation invariant between a top-down and a
bottom-up run. -/
def Agr (a b : MState) : Prop :=
  a.temps = b.temps ∧ a.labels = b.labels ∧ a.scopes = b.scopes ∧
  a.loops = b.loops

theorem agr_refl (s : MState) : Agr s s := ⟨rfl, rfl, rfl, rfl⟩

@[simp] theorem report_temps (s : MState) (d : Diag) :
    (report s d).temps = s.temps := rfl

@[simp] theorem report_labels (s : MState) (d : Diag) :
    (report s d).labels = s.labels := rfl

@[simp] theorem report_instrs (s : MState) (d : Diag) :
    (report s d).instrs = s.instrs := rfl

@[simp] theorem report_scopes (s : MState) (d : Diag) :
    (report s d).scopes = s.scopes := rfl

@[simp] theorem report_loops (s : MState) (d : Diag) :
    (report s d).loops = s.loops := rfl

@[simp] theorem report_diags (s : MState) (d : Diag) :
    (report s d).diags = s.diags ++ [d] := rfl

@[simp] theorem emit1_temps (s : MState) (i : Instr) :
    (emit1 s i).temps = s.temps := rfl

@[simp] theorem emit1_labels (s : MState) (i : Instr) :
    (emit1 s i).labels = s.labels := rfl

@[simp] theorem emit1_instrs (s : MState) (i : Instr) :
    (emit1 s i).instrs = s.instrs ++ [i] := rfl

@[simp] theorem emit1_scopes (s : MState) (i : Instr) :
    (emit1 s i).scopes = s.scopes := rfl

@[simp] theorem emit1_loops (s : MState) (i : Instr) :
    (emit1 s i).loops = s.loops := rfl

@[simp] theorem emit1_diags (s : MState) (i : Instr) :
    (emit1 s i).diags = s.diags := rfl

@[simp] theorem emitL_temps (s : MState) (l : List Instr) :
    (emitL s l).temps = s.temps := rfl

@[simp] theorem emitL_labels (s : MState) (l : List Instr) :
    (emitL s l).labels = s.labels := rfl

@[simp] theorem emitL_instrs (s : MState) (l : List Instr) :
    (emitL s l).instrs = s.instrs ++ l := rfl

@[simp] theorem emitL_scopes (s : MState) (l : List Instr) :
    (emitL s l).scopes = s.scopes := rfl

@[simp] theorem emitL_loops (s : MState) (l : List Instr) :
    (emitL s l).loops = s.loops := rfl

@[simp] theorem emitL_diags (s : MState) (l : List Instr) :
    (emitL s l).diags = s.diags := rfl

@[simp] theorem newTemp_fst (s : MState) : (newTemp s).1 = tempName s.temps := rfl

@[simp] theorem newTemp_temps (s : MState) : (newTemp s).2.temps = s.temps + 1 := rfl

@[simp] theorem newTemp_labels (s : MState) : (newTemp s).2.labels = s.labels := rfl

@[simp] theorem newTemp_instrs (s : MState) : (newTemp s).2.instrs = s.instrs := rfl

@[simp] theorem newTemp_scopes (s : MState) : (newTemp s).2.scopes = s.scopes := rfl

@[simp] theorem newTemp_loops (s : MState) : (newTemp s).2.loops = s.loops := rfl

@[simp] theorem newTemp_diags (s : MState) : (newTemp s).2.diags = s.diags := rfl

@[simp] theorem freshLabel_fst (b : String) (s : MState) :
    (freshLabel b s).1 = labelName b s.labels := rfl

@[simp] theorem freshLabel_temps (b : String) (s : MState) :
    (freshLabel b s).2.temps = s.temps := rfl

@[simp] theorem freshLabel_labels (b : String) (s : MState) :
    (freshLabel b s).2.labels = s.labels + 1 := rfl

@[simp] theorem freshLabel_instrs (b : String) (s : MState) :
    (freshLabel b s).2.instrs = s.instrs := rfl

@[simp] theorem freshLabel_scopes (b : String) (s : MState) :
    (freshLabel b s).2.scopes = s.scopes := rfl

@[simp] theorem freshLabel_loops (b : String) (s : MState) :
    (freshLabel b s).2.loops = s.loops := rfl

@[simp] theorem freshLabel_diags (b : String) (s : MState) :
    (freshLabel b s).2.diags = s.diags := rfl

@[simp] theorem pushScope_temps (s : MState) : (pushScope s).temps = s.temps := rfl

@[simp] theorem pushScope_labels (s : MState) : (pushScope s).labels = s.labels := rfl

@[simp] theorem pushScope_instrs (s : MState) : (pushScope s).instrs = s.instrs := rfl

@[simp] theorem pushScope_scopes (s : MState) :
    (pushScope s).scopes = [] :: s.scopes := rfl

@[simp] theorem pushScope_loops (s : MState) : (pushScope s).loops = s.loops := rfl

@[simp] theorem popScope_temps (s : MState) : (popScope s).temps = s.temps := rfl

@[simp] theorem popScope_labels (s : MState) : (popScope s).labels = s.labels := rfl

@[simp] theorem popScope_instrs (s : MState) : (popScope s).instrs = s.instrs := rfl

@[simp] theorem popScope_scopes (s : MState) :
    (popScope s).scopes = s.scopes.tail := rfl

@[simp] theorem popScope_loops (s : MState) : (popScope s).loops = s.loops := rfl

@[simp] theorem buWrapE_fst (nm : String) (r : (String × List Instr) × MState) :
    (buWrapE nm r).1 = r.1 := by
  unfold buWrapE; split <;> rfl

@[simp] theorem buWrapE_temps (nm : String) (r : (String × List Instr) × MState) :
    (buWrapE nm r).2.temps = r.2.temps := by
  unfold buWrapE; split <;> simp

@[simp] theorem buWrapE_labels (nm : String) (r : (String × List Instr) × MState) :
    (buWrapE nm r).2.labels = r.2.labels := by
  unfold buWrapE; split <;> simp

@[simp] theorem buWrapE_instrs (nm : String) (r : (String × List Instr) × MState) :
    (buWrapE nm r).2.instrs = r.2.instrs := by
  unfold buWrapE; split <;> simp

@[simp] theorem buWrapE_scopes (nm : String) (r : (String × List Instr) × MState) :
    (buWrapE nm r).2.scopes = r.2.scopes := by
  unfold buWrapE; split <;> simp

@[simp] theorem buWrapE_loops (nm : String) (r : (String × List Instr) × MState) :
    (buWrapE nm r).2.loops = r.2.loops := by
  unfold buWrapE; split <;> simp

/-- Simulation between the two lowering disciplines on expressions: from
states agreeing on counters, scopes and loops, `TopDownMunch` returns the
same value temporary as `BottomUpMunch`, appends to the shared list
exactly the local list `BottomUpMunch` returns, and the two runs keep
agreeing; the bottom-up expression visit never touches the shared list,
the scopes, or the loop stack. -/
theorem exprSim (e : Expr) : ∀ (sT sB : MState), Agr sT sB →
    (tdExpr e sT).1 = (buExprRaw e sB).1.1 ∧
    (tdExpr e sT).2.instrs = sT.instrs ++ (buExprRaw e sB).1.2 ∧
    Agr (tdExpr e sT).2 (buExprRaw e sB).2 ∧
    (buExprRaw e sB).2.instrs = sB.instrs ∧
    (buExprRaw e sB).2.scopes = sB.scopes ∧
    (buExprRaw e sB).2.loops = sB.loops := by
  induction e with
  | EVar n =>
    intro sT sB hA
    obtain ⟨ht, hl, hsc, hlo⟩ := hA
    simp only [tdExpr, buExprRaw, hsc]
    cases h : lookupVar sB.scopes n with
    | some t => simp [h, Agr, ht, hl, hsc, hlo]
    | none => simp [h, Agr, ht, hl, hsc, hlo]
  | ENum v =>
    intro sT sB hA
    obtain ⟨ht, hl, hsc, hlo⟩ := hA
    simp [tdExpr, buExprRaw, Agr, ht, hl, hsc, hlo]
  | EBool b =>
    intro sT sB hA
    obtain ⟨ht, hl, hsc, hlo⟩ := hA
    simp [tdExpr, buExprRaw, Agr, ht, hl, hsc, hlo]
  | EUnOp op e ih =>
    intro sT sB hA
    obtain ⟨h1, h2, h3, h4, h5, h6⟩ := ih sT sB hA
    obtain ⟨ht, hl, hsc, hlo⟩ := h3
    obtain ⟨ht0, hl0, hsc0, hlo0⟩ := hA
    by_cases hop : op = "boolean-not" <;>
      simp [tdExpr, buExprRaw, hop, Agr, h1, h2, h4, h5, h6, ht, hl, hsc, hlo]
  | EBinOp op a b iha ihb =>
    intro sT sB hA
    obtain ⟨ht0, hl0, hsc0, hlo0⟩ := hA
    by_cases hop1 : op = "boolean-and"
    · -- boolean-and: temporaries and label first, then both children
      subst hop1
      simp only [tdExpr, buExprRaw, String.reduceEq, reduceIte, ite_true,
        ite_false]
      set t1T := (newTemp sT).1 with ht1T
      set t2T := (newTemp (newTemp sT).2).1 with ht2T
      set eT := (freshLabel "end_and" (newTemp (newTemp sT).2).2).1 with heT
      set S0T := (freshLabel "end_and" (newTemp (newTemp sT).2).2).2 with hS0T
      set S1T := emitL S0T [mkConst 1 t1T, mkConst 1 t2T] with hS1T
      set RA := tdExpr a S1T with hRA
      set S2T := emitL RA.2 [mkCopy RA.1 t1T, mkJz t1T eT] with hS2T
      set RB := tdExpr b S2T with hRB
      set t1B := (newTemp sB).1 with ht1B
      set t2B := (newTemp (newTemp sB).2).1 with ht2B
      set eB := (freshLabel "end_and" (newTemp (newTemp sB).2).2).1 with heB
      set S0B := (freshLabel "end_and" (newTemp (newTemp sB).2).2).2 with hS0B
      set QA := buExprRaw a S0B with hQA
      set WA := buWrapE (exprName a) QA with hWA
      set QB := buExprRaw b WA.2 with hQB
      set WB := buWrapE (exprName b) QB with hWB
      have hAgr1 : Agr S1T S0B := by
        simp [hS1T, hS0T, hS0B, Agr, ht0, hl0, hsc0, hlo0]
      have hia := iha S1T S0B hAgr1
      rw [← hRA, ← hQA] at hia
      obtain ⟨a1, a2, a3, a4, a5, a6⟩ := hia
      obtain ⟨p1, p2, p3, p4⟩ := a3
      have hAgr2 : Agr S2T WA.2 := by
        refine ⟨?_, ?_, ?_, ?_⟩ <;> simp [hS2T, hWA, p1, p2, p3, p4]
      have hib := ihb S2T WA.2 hAgr2
      rw [← hRB, ← hQB] at hib
      obtain ⟨b1, b2, b3, b4, b5, b6⟩ := hib
      obtain ⟨q1, q2, q3, q4⟩ := b3
      refine ⟨?_, ?_, ?_, ?_, ?_, ?_⟩
      · simp [ht1T, ht1B, ht0]
      · simp only [emitL_instrs, b2, hWB, buWrapE_fst, buWrapE_instrs]
        simp only [hS2T, emitL_instrs, a2, hS1T, hS0T, hS0B, hWA, buWrapE_fst,
          buWrapE_instrs, emitL_instrs, freshLabel_instrs, newTemp_instrs,
          b1, a1]
        simp [ht1T, ht1B, ht2T, ht2B, heT, heB, ht0, hl0, List.append_assoc]
      · exact ⟨by simpa [hWB] using q1, by simpa [hWB] using q2,
          by simpa [hWB] using q3, by simpa [hWB] using q4⟩
      · simp only [hWB, buWrapE_instrs, b4, hWA, buWrapE_instrs, a4]
        simp [hS0B]
      · simp only [hWB, buWrapE_scopes, b5, hWA, buWrapE_scopes, a5]
        simp [hS0B]
      · simp only [hWB, buWrapE_loops, b6, hWA, buWrapE_loops, a6]
        simp [hS0B]
    · by_cases hop2 : op = "boolean-or"
      · subst hop2
        simp only [tdExpr, buExprRaw, String.reduceEq, reduceIte, ite_true,
          ite_false]
        set t1T := (newTemp sT).1 with ht1T
        set t2T := (newTemp (newTemp sT).2).1 with ht2T
        set eT := (freshLabel "end_or" (newTemp (newTemp sT).2).2).1 with heT
        set S0T := (freshLabel "end_or" (newTemp (newTemp sT).2).2).2 with hS0T
        set S1T := emitL S0T [mkConst 0 t1T, mkConst 0 t2T] with hS1T
        set RA := tdExpr a S1T with hRA
        set S2T := emitL RA.2 [mkCopy RA.1 t1T, mkJnz t1T eT] with hS2T
        set RB := tdExpr b S2T with hRB
        set t1B := (newTemp sB).1 with ht1B
        set t2B := (newTemp (newTemp sB).2).1 with ht2B
        set eB := (freshLabel "end_or" (newTemp (newTemp sB).2).2).1 with heB
        set S0B := (freshLabel "end_or" (newTemp (newTemp sB).2).2).2 with hS0B
        set QA := buExprRaw a S0B with hQA
        set WA := buWrapE (exprName a) QA with hWA
        set QB := buExprRaw b WA.2 with hQB
        set WB := buWrapE (exprName b) QB with hWB
        have hAgr1 : Agr S1T S0B := by
          simp [hS1T, hS0T, hS0B, Agr, ht0, hl0, hsc0, hlo0]
        have hia := iha S1T S0B hAgr1
        rw [← hRA, ← hQA] at hia
        obtain ⟨a1, a2, a3, a4, a5, a6⟩ := hia
        obtain ⟨p1, p2, p3, p4⟩ := a3
        have hAgr2 : Agr S2T WA.2 := by
          refine ⟨?_, ?_, ?_, ?_⟩ <;> simp [hS2T, hWA, p1, p2, p3, p4]
        have hib := ihb S2T WA.2 hAgr2
        rw [← hRB, ← hQB] at hib
        obtain ⟨b1, b2, b3, b4, b5, b6⟩ := hib
        obtain ⟨q1, q2, q3, q4⟩ := b3
        refine ⟨?_, ?_, ?_, ?_, ?_, ?_⟩
        · simp [ht1T, ht1B, ht0]
        · simp only [emitL_instrs, b2, hWB, buWrapE_fst, buWrapE_instrs]
          simp only [hS2T, emitL_instrs, a2, hS1T, hS0T, hS0B, hWA, buWrapE_fst,
            buWrapE_instrs, emitL_instrs, freshLabel_instrs, newTemp_instrs,
            b1, a1]
          simp [ht1T, ht1B, ht2T, ht2B, heT, heB, ht0, hl0, List.append_assoc]
        · exact ⟨by simpa [hWB] using q1, by simpa [hWB] using q2,
            by simpa [hWB] using q3, by simpa [hWB] using q4⟩
        · simp only [hWB, buWrapE_instrs, b4, hWA, buWrapE_instrs, a4]
          simp [hS0B]
        · simp only [hWB, buWrapE_scopes, b5, hWA, buWrapE_scopes, a5]
          simp [hS0B]
        · simp only [hWB, buWrapE_loops, b6, hWA, buWrapE_loops, a6]
          simp [hS0B]
      · -- comparison and default arms: children first, result temp after
        by_cases hop3 : isCmpOp op = true
        · simp only [tdExpr, buExprRaw, hop1, hop2, hop3, String.reduceEq,
            reduceIte, ite_true, ite_false, Bool.false_eq_true,
            Bool.true_eq_false, eq_self_iff_true]
          set RA := tdExpr a sT with hRA
          set RB := tdExpr b RA.2 with hRB
          set QA := buExprRaw a sB with hQA
          set WA := buWrapE (exprName a) QA with hWA
          set QB := buExprRaw b WA.2 with hQB
          set WB := buWrapE (exprName b) QB with hWB
          have hia := iha sT sB ⟨ht0, hl0, hsc0, hlo0⟩
          rw [← hRA, ← hQA] at hia
          obtain ⟨a1, a2, a3, a4, a5, a6⟩ := hia
          obtain ⟨p1, p2, p3, p4⟩ := a3
          have hAgr2 : Agr RA.2 WA.2 := by
            refine ⟨?_, ?_, ?_, ?_⟩ <;> simp [hWA, p1, p2, p3, p4]
          have hib := ihb RA.2 WA.2 hAgr2
          rw [← hRB, ← hQB] at hib
          obtain ⟨b1, b2, b3, b4, b5, b6⟩ := hib
          obtain ⟨q1, q2, q3, q4⟩ := b3
          refine ⟨?_, ?_, ?_, ?_, ?_, ?_⟩
          · simp [hWB, q1]
          · simp only [emitL_instrs, emit1_instrs, newTemp_instrs,
              freshLabel_instrs, b2, a2, b1, a1, hWB, hWA, buWrapE_fst,
              buWrapE_instrs, buWrapE_temps, buWrapE_labels, newTemp_fst,
              freshLabel_fst, newTemp_temps, newTemp_labels, freshLabel_temps,
              freshLabel_labels]
            simp [q1, q2, List.append_assoc]
          · refine ⟨?_, ?_, ?_, ?_⟩ <;> simp [hWB, q1, q2, q3, q4]
          · simp [hWB, b4, hWA, a4]
          · simp [hWB, b5, hWA, a5]
          · simp [hWB, b6, hWA, a6]
        · simp only [tdExpr, buExprRaw, hop1, hop2, hop3, String.reduceEq,
            reduceIte, ite_true, ite_false, Bool.false_eq_true,
            Bool.true_eq_false, eq_self_iff_true]
          set RA := tdExpr a sT with hRA
          set RB := tdExpr b RA.2 with hRB
          set QA := buExprRaw a sB with hQA
          set WA := buWrapE (exprName a) QA with hWA
          set QB := buExprRaw b WA.2 with hQB
          set WB := buWrapE (exprName b) QB with hWB
          have hia := iha sT sB ⟨ht0, hl0, hsc0, hlo0⟩
          rw [← hRA, ← hQA] at hia
          obtain ⟨a1, a2, a3, a4, a5, a6⟩ := hia
          obtain ⟨p1, p2, p3, p4⟩ := a3
          have hAgr2 : Agr RA.2 WA.2 := by
            refine ⟨?_, ?_, ?_, ?_⟩ <;> simp [hWA, p1, p2, p3, p4]
          have hib := ihb RA.2 WA.2 hAgr2
          rw [← hRB, ← hQB] at hib
          obtain ⟨b1, b2, b3, b4, b5, b6⟩ := hib
          obtain ⟨q1, q2, q3, q4⟩ := b3
          refine ⟨?_, ?_, ?_, ?_, ?_, ?_⟩
          · simp [hWB, q1]
          · simp only [emitL_instrs, emit1_instrs, newTemp_instrs,
              freshLabel_instrs, b2, a2, b1, a1, hWB, hWA, buWrapE_fst,
              buWrapE_instrs, buWrapE_temps, buWrapE_labels, newTemp_fst,
              freshLabel_fst, newTemp_temps, newTemp_labels, freshLabel_temps,
              freshLabel_labels]
            simp [q1, List.append_assoc]
          · refine ⟨?_, ?_, ?_, ?_⟩ <;> simp [hWB, q1, q2, q3, q4]
          · simp [hWB, b4, hWA, a4]
          · simp [hWB, b5, hWA, a5]
          · simp [hWB, b6, hWA, a6]
  | EPar e ih =>
    intro sT sB hA
    obtain ⟨h1, h2, h3, h4, h5, h6⟩ := ih sT sB hA
    obtain ⟨x1, x2, x3, x4⟩ := h3
    simp only [tdExpr, buExprRaw, buWrapE_fst, buWrapE_instrs, buWrapE_scopes,
      buWrapE_loops, buWrapE_temps, buWrapE_labels]
    refine ⟨h1, h2, ⟨?_, ?_, ?_, ?_⟩, h4, h5, h6⟩ <;>
      simp [x1, x2, x3, x4]

/-- Corollary of `exprSim`: a top-down expression visit appends to the
shared instruction list exactly the local list that the bottom-up raw
visit of the same expression returns. -/
theorem tdExpr_instrs (e : Expr) (s : MState) :
    (tdExpr e s).2.instrs = s.instrs ++ (buExprRaw e s).1.2 :=
  (exprSim e s s (agr_refl s)).2.1

/-- A top-down expression visit leaves the scope stack unchanged. -/
theorem tdExpr_scopes (e : Expr) (s : MState) :
    (tdExpr e s).2.scopes = s.scopes :=
  ((exprSim e s s (agr_refl s)).2.2.1.2.2.1).trans
    (exprSim e s s (agr_refl s)).2.2.2.2.1

/-- A top-down expression visit leaves the loop stack unchanged. -/
theorem tdExpr_loops (e : Expr) (s : MState) :
    (tdExpr e s).2.loops = s.loops :=
  ((exprSim e s s (agr_refl s)).2.2.1.2.2.2).trans
    (exprSim e s s (agr_refl s)).2.2.2.2.2

/-- State extension: the later state's instruction list extends the
earlier one on the right and its loop stack extends it on the left (loop
entries are only ever pushed, instructions only ever appended). -/
def Ext (s t : MState) : Prop :=
  (∃ d, t.instrs = s.instrs ++ d) ∧ (∃ l, t.loops = l ++ s.loops)

theorem ext_refl (s : MState) : Ext s s := ⟨⟨[], by simp⟩, ⟨[], by simp⟩⟩

theorem ext_trans {s t u : MState} (h1 : Ext s t) (h2 : Ext t u) : Ext s u := by
  obtain ⟨⟨d1, hd1⟩, ⟨l1, hl1⟩⟩ := h1
  obtain ⟨⟨d2, hd2⟩, ⟨l2, hl2⟩⟩ := h2
  exact ⟨⟨d1 ++ d2, by simp [hd2, hd1]⟩, ⟨l2 ++ l1, by simp [hl2, hl1]⟩⟩

theorem ext_of_same {s t : MState} (hi : t.instrs = s.instrs)
    (hl : t.loops = s.loops) : Ext s t :=
  ⟨⟨[], by simp [hi]⟩, ⟨[], by simp [hl]⟩⟩

theorem ext_report (s : MState) (d : Diag) : Ext s (report s d) :=
  ext_of_same rfl rfl

theorem ext_emit1 (s : MState) (i : Instr) : Ext s (emit1 s i) :=
  ⟨⟨[i], rfl⟩, ⟨[], by simp⟩⟩

theorem ext_emitL (s : MState) (l : List Instr) : Ext s (emitL s l) :=
  ⟨⟨l, rfl⟩, ⟨[], by simp⟩⟩

theorem ext_tdExpr (e : Expr) (s : MState) : Ext s (tdExpr e s).2 :=
  ⟨⟨(buExprRaw e s).1.2, tdExpr_instrs e s⟩, ⟨[], by simp [tdExpr_loops]⟩⟩

/-- Exception propagation only extends states: if the first step extends
`s` and every continuation step extends its input, so does the sequence. -/
theorem ext_andThen {s : MState} {r : MState × Option Crash}
    {f : MState → MState × Option Crash} (h1 : Ext s r.1)
    (h2 : ∀ t, Ext t (f t).1) : Ext s (andThen r f).1 := by
  obtain ⟨t, c⟩ := r
  cases c with
  | none => exact ext_trans h1 (h2 t)
  | some e => exact h1

theorem andThen_of_none {r : MState × Option Crash}
    {f : MState → MState × Option Crash} (h1 : r.2 = none) :
    andThen r f = f r.1 := by
  obtain ⟨t, c⟩ := r
  cases c with
  | none => rfl
  | some e => simp at h1

theorem andThen_snd_none {r : MState × Option Crash}
    {f : MState → MState × Option Crash} (h1 : r.2 = none)
    (h2 : (f r.1).2 = none) : (andThen r f).2 = none := by
  rw [andThen_of_none h1]; exact h2

/- Every top-down statement visit only appends instructions and only
pushes loop entries (`visit_SWhile` never pops), whatever the traversal
outcome. -/
mutual

theorem tdStmt_ext (n : Node) (s : MState) : Ext s (tdStmt n s).1 := by
  cases n with
  | SVarDecl nm ty rv =>
    simp only [tdStmt]
    split
    · exact ext_report _ _
    · split
      · exact ext_report _ _
      · refine ext_trans (ext_trans ?_ (ext_tdExpr rv _)) (ext_emit1 _ _)
        exact ext_of_same (by simp) (by simp)
  | SAssignment nm rv =>
    simp only [tdStmt]
    split
    · exact ext_report _ _
    · exact ext_trans (ext_tdExpr rv _) (ext_emit1 _ _)
  | SPrint e =>
    exact ext_trans (ext_tdExpr e _) (ext_emit1 _ _)
  | SBlock l =>
    simp only [tdStmt]
    refine ext_andThen ?_ (fun t => ext_of_same rfl rfl)
    exact tdStmts_ext l (pushScope s)
  | SWhile c b =>
    simp only [tdStmt]
    refine ext_andThen ?_ (fun t => ext_emitL _ _)
    refine ext_trans ?_ (tdStmt_ext b _)
    refine ext_trans ?_ (ext_emit1 _ _)
    refine ext_trans ?_ (ext_tdExpr c _)
    refine ext_trans ?_ (ext_emit1 _ _)
    exact ⟨⟨[], by simp⟩,
      ⟨[(labelName "start_while" s.labels, labelName "end_while" (s.labels + 1))],
        by simp⟩⟩
  | SIfElse c ib eb =>
    simp only [tdStmt]
    refine ext_andThen ?_ (fun t => ?_)
    · refine ext_trans ?_ (tdStmt_ext ib _)
      exact ext_trans (ext_tdExpr c s) (ext_emit1 _ _)
    · cases eb with
      | none =>
        exact ext_trans (ext_emit1 _ _) (ext_trans (ext_emit1 _ _) (ext_emit1 _ _))
      | some e =>
        simp only
        refine ext_andThen ?_ (fun u => ext_emit1 _ _)
        refine ext_trans ?_ (tdStmt_ext e _)
        exact ext_trans (ext_emit1 _ _) (ext_emit1 _ _)
  | SBreak =>
    simp only [tdStmt]
    split
    · exact ext_report _ _
    · exact ext_emit1 _ _
  | SContinue =>
    simp only [tdStmt]
    split
    · exact ext_report _ _
    · exact ext_emit1 _ _
  | NList l =>
    exact ext_refl s

theorem tdStmts_ext (l : List Node) (s : MState) : Ext s (tdStmts l s).1 := by
  cases l with
  | nil => exact ext_refl s
  | cons n rest =>
    simp only [tdStmts]
    exact ext_andThen (tdStmt_ext n s) (fun t => tdStmts_ext rest t)

end

/- Trees free of raw-list nodes never crash the top-down muncher: the
only path to `generic_visit` is a raw list used as a statement. -/
mutual

theorem tdStmt_noCrash (n : Node) (s : MState) (hn : noBareListS n = true) :
    (tdStmt n s).2 = none := by
  cases n with
  | SVarDecl nm ty rv =>
    simp only [tdStmt]
    split
    · rfl
    · split <;> rfl
  | SAssignment nm rv =>
    simp only [tdStmt]
    split <;> rfl
  | SPrint e => rfl
  | SBlock l =>
    simp only [noBareListS] at hn
    simp only [tdStmt]
    exact andThen_snd_none (tdStmts_noCrash l (pushScope s) hn) rfl
  | SWhile c b =>
    simp only [noBareListS] at hn
    simp only [tdStmt]
    exact andThen_snd_none (tdStmt_noCrash b _ hn) rfl
  | SIfElse c ib eb =>
    simp only [noBareListS, Bool.and_eq_true] at hn
    simp only [tdStmt]
    refine andThen_snd_none (tdStmt_noCrash ib _ hn.1) ?_
    cases eb with
    | none => rfl
    | some e =>
      simp only
      exact andThen_snd_none
        (tdStmt_noCrash e _ (by simpa [noBareListO] using hn.2)) rfl
  | SBreak =>
    simp only [tdStmt]
    split <;> rfl
  | SContinue =>
    simp only [tdStmt]
    split <;> rfl
  | NList l =>
    simp [noBareListS] at hn

theorem tdStmts_noCrash (l : List Node) (s : MState)
    (hn : noBareListL l = true) : (tdStmts l s).2 = none := by
  cases l with
  | nil => rfl
  | cons n rest =>
    simp only [noBareListL, Bool.and_eq_true] at hn
    simp only [tdStmts]
    exact andThen_snd_none (tdStmt_noCrash n s hn.1)
      (tdStmts_noCrash rest _ hn.2)

end

/- Straight-line simulation: on statements free of control flow, the
top-down muncher and the bottom-up muncher, run from states agreeing on
counters, scopes and loops, both complete and append the same
instruction delta to their shared sequences. -/
mutual

theorem stmtSimRaw (n : Node) : ∀ (sT sB : MState), Agr sT sB →
    straightLineS n = true →
    (tdStmt n sT).2 = none ∧ (buStmtRaw n sB).2 = none ∧
    Agr (tdStmt n sT).1 (buStmtRaw n sB).1 ∧
    ∃ d, (tdStmt n sT).1.instrs = sT.instrs ++ d ∧
      (buStmtRaw n sB).1.instrs = sB.instrs ++ d := by
  cases n with
  | SVarDecl nm ty rv =>
    intro sT sB hA hsl
    obtain ⟨ht0, hl0, hsc0, hlo0⟩ := hA
    have hscr : declareVar (newTemp sT).2.scopes nm (newTemp sT).1 =
        declareVar (newTemp sB).2.scopes nm (newTemp sB).1 := by
      simp [ht0, hsc0]
    simp only [tdStmt, buStmtRaw]
    cases hdT : declareVar (newTemp sT).2.scopes nm (newTemp sT).1 with
    | none =>
      have hdB : declareVar (newTemp sB).2.scopes nm (newTemp sB).1 = none := by
        rw [← hscr]; exact hdT
      simp only [hdB]
      refine ⟨by trivial, by trivial, ⟨?_, ?_, ?_, ?_⟩,
        ⟨[], by simp, by simp⟩⟩ <;> simp [ht0, hl0, hsc0, hlo0]
    | some sc =>
      have hdB : declareVar (newTemp sB).2.scopes nm (newTemp sB).1 = some sc := by
        rw [← hscr]; exact hdT
      simp only [hdB]
      cases hlT : lookupVar sc nm with
      | none =>
        simp only
        refine ⟨by trivial, by trivial, ⟨?_, ?_, ?_, ?_⟩,
          ⟨[], by simp, by simp⟩⟩ <;> simp [ht0, hl0, hsc0, hlo0]
      | some v =>
        simp only
        have hAgr1 : Agr { (newTemp sT).2 with scopes := sc }
            { (newTemp sB).2 with scopes := sc } := by
          refine ⟨?_, ?_, ?_, ?_⟩ <;> simp [ht0, hl0, hlo0]
        obtain ⟨e1, e2, e3, e4, e5, e6⟩ := exprSim rv _ _ hAgr1
        obtain ⟨g1, g2, g3, g4⟩ := e3
        simp only [newTemp_temps, newTemp_labels, newTemp_instrs,
          newTemp_scopes, newTemp_loops, newTemp_diags] at e1 e2 e4 g1 g2 g3 g4
        refine ⟨by trivial, by trivial, ⟨?_, ?_, ?_, ?_⟩, ?_⟩
        · simp [buVisitE, g1]
        · simp [buVisitE, g2]
        · simp [buVisitE, g3]
        · simp [buVisitE, g4]
        · refine ⟨(buExprRaw rv { (newTemp sB).2 with scopes := sc }).1.2 ++
            [mkCopy (buExprRaw rv { (newTemp sB).2 with scopes := sc }).1.1 v],
            ?_, ?_⟩
          · simp [e2, e1, buVisitE, List.append_assoc]
          · simp [buVisitE, e4, List.append_assoc]
  | SAssignment nm rv =>
    intro sT sB hA hsl
    obtain ⟨ht0, hl0, hsc0, hlo0⟩ := hA
    simp only [tdStmt, buStmtRaw]
    cases hlT : lookupVar sT.scopes nm with
    | none =>
      have hlB : lookupVar sB.scopes nm = none := by rw [← hsc0]; exact hlT
      simp only [hlB]
      refine ⟨by trivial, by trivial, ⟨?_, ?_, ?_, ?_⟩,
        ⟨[], by simp, by simp⟩⟩ <;> simp [ht0, hl0, hsc0, hlo0]
    | some v =>
      have hlB : lookupVar sB.scopes nm = some v := by rw [← hsc0]; exact hlT
      simp only [hlB]
      obtain ⟨e1, e2, e3, e4, e5, e6⟩ := exprSim rv sT sB ⟨ht0, hl0, hsc0, hlo0⟩
      obtain ⟨g1, g2, g3, g4⟩ := e3
      refine ⟨by trivial, by trivial, ⟨?_, ?_, ?_, ?_⟩, ?_⟩
      · simp [buVisitE, g1]
      · simp [buVisitE, g2]
      · simp [buVisitE, g3]
      · simp [buVisitE, g4]
      · refine ⟨(buExprRaw rv sB).1.2 ++ [mkCopy (buExprRaw rv sB).1.1 v], ?_, ?_⟩
        · simp [e2, e1, buVisitE, List.append_assoc]
        · simp [buVisitE, e4, List.append_assoc]
  | SPrint e =>
    intro sT sB hA hsl
    obtain ⟨ht0, hl0, hsc0, hlo0⟩ := hA
    simp only [tdStmt, buStmtRaw]
    obtain ⟨e1, e2, e3, e4, e5, e6⟩ := exprSim e sT sB ⟨ht0, hl0, hsc0, hlo0⟩
    obtain ⟨g1, g2, g3, g4⟩ := e3
    refine ⟨by trivial, by trivial, ⟨?_, ?_, ?_, ?_⟩, ?_⟩
    · simp [buVisitE, g1]
    · simp [buVisitE, g2]
    · simp [buVisitE, g3]
    · simp [buVisitE, g4]
    · refine ⟨(buExprRaw e sB).1.2 ++ [mkPrint (buExprRaw e sB).1.1], ?_, ?_⟩
      · simp [e2, e1, buVisitE, List.append_assoc]
      · simp [buVisitE, e4, List.append_assoc]
  | SBlock l =>
    intro sT sB hA hsl
    obtain ⟨ht0, hl0, hsc0, hlo0⟩ := hA
    have hsll : straightLineL l = true := by
      exact (show straightLineL l = true from hsl)
    have hAgrPush : Agr (pushScope sT) (pushScope sB) := by
      refine ⟨?_, ?_, ?_, ?_⟩ <;> simp [ht0, hl0, hsc0, hlo0]
    obtain ⟨c1, c2, c3, ⟨d, hdT, hdB⟩⟩ := stmtsSim l _ _ hAgrPush hsll
    obtain ⟨g1, g2, g3, g4⟩ := c3
    simp only [tdStmt, buStmtRaw]
    rw [andThen_of_none c1, andThen_of_none c2]
    refine ⟨by trivial, by trivial, ⟨?_, ?_, ?_, ?_⟩, ⟨d, ?_, ?_⟩⟩
    · simp [g1]
    · simp [g2]
    · simp [g3]
    · simp [g4]
    · simpa using hdT
    · simpa using hdB
  | SWhile c b =>
    intro sT sB hA hsl
    exact Bool.noConfusion (show false = true from hsl)
  | SIfElse c ib eb =>
    intro sT sB hA hsl
    exact Bool.noConfusion (show false = true from hsl)
  | SBreak =>
    intro sT sB hA hsl
    exact Bool.noConfusion (show false = true from hsl)
  | SContinue =>
    intro sT sB hA hsl
    exact Bool.noConfusion (show false = true from hsl)
  | NList l =>
    intro sT sB hA hsl
    exact Bool.noConfusion (show false = true from hsl)

theorem stmtsSim (l : List Node) : ∀ (sT sB : MState), Agr sT sB →
    straightLineL l = true →
    (tdStmts l sT).2 = none ∧ (buStmts l sB).2 = none ∧
    Agr (tdStmts l sT).1 (buStmts l sB).1 ∧
    ∃ d, (tdStmts l sT).1.instrs = sT.instrs ++ d ∧
      (buStmts l sB).1.instrs = sB.instrs ++ d := by
  cases l with
  | nil =>
    intro sT sB hA hsl
    exact ⟨rfl, rfl, hA, ⟨[], by simp [tdStmts], by simp [buStmts]⟩⟩
  | cons n rest =>
    intro sT sB hA hsl
    have hsl2 : straightLineS n = true ∧ straightLineL rest = true := by
      have h := (show (straightLineS n && straightLineL rest) = true from hsl)
      rw [Bool.and_eq_true] at h
      exact h
    obtain ⟨h1, h2, h3, ⟨d1, hd1T, hd1B⟩⟩ := stmtSimRaw n sT sB hA hsl2.1
    obtain ⟨g1, g2, g3, g4⟩ := h3
    have hA2 : Agr (tdStmt n sT).1
        (report (buStmtRaw n sB).1 (.noInstrFor (nodeName n))) := by
      refine ⟨?_, ?_, ?_, ?_⟩ <;> simp [g1, g2, g3, g4]
    obtain ⟨t1, t2, t3, ⟨d2, ht2T, ht2B⟩⟩ := stmtsSim rest _ _ hA2 hsl2.2
    simp only [tdStmts, buStmts]
    rw [andThen_of_none h1, andThen_of_none h2]
    refine ⟨t1, t2, t3, ⟨d1 ++ d2, ?_, ?_⟩⟩
    · rw [ht2T, hd1T]; simp [List.append_assoc]
    · rw [ht2B]; simp [hd1B, List.append_assoc]

end

/-- Auxiliary: the local instruction list returned by a bottom-up raw
expression visit is empty exactly when the expression is a (possibly
parenthesized) variable reference. -/
theorem buLocal_isEmpty (e : Expr) : ∀ (s : MState),
    ((buExprRaw e s).1.2).isEmpty = isVarCore e := by
  induction e with
  | EVar n =>
    intro s
    simp only [buExprRaw, isVarCore]
    cases h : lookupVar s.scopes n <;> simp [h]
  | ENum v => intro s; simp [buExprRaw, isVarCore]
  | EBool b => intro s; simp [buExprRaw, isVarCore]
  | EUnOp op e ih =>
    intro s
    simp only [buExprRaw, isVarCore]
    by_cases hop : op = "boolean-not" <;> simp [hop]
  | EBinOp op a b iha ihb =>
    intro s
    simp only [buExprRaw, isVarCore]
    by_cases hop1 : op = "boolean-and"
    · simp [hop1]
    · by_cases hop2 : op = "boolean-or"
      · simp [hop1, hop2]
      · by_cases hop3 : isCmpOp op = true <;> simp [hop1, hop2, hop3]
  | EPar e ih =>
    intro s
    simp only [buExprRaw, isVarCore, buWrapE_fst]
    exact ih s

/-- Auxiliary: a raw-list statement anywhere after a prefix of list-free
statements aborts the top-down traversal with Python's `AttributeError`
(from `generic_visit` touching `node.position` on a `list`), leaving the
state exactly as the prefix left it. -/
theorem tdStmts_bareList (pre : List Node) : ∀ (l rest : List Node)
    (s : MState), noBareListL pre = true →
    tdStmts (pre ++ .NList l :: rest) s =
      ((tdStmts pre s).1, some .attributeError) := by
  induction pre with
  | nil =>
    intro l rest s hn
    rfl
  | cons n pre ih =>
    intro l rest s hn
    have hn2 : noBareListS n = true ∧ noBareListL pre = true := by
      have h := (show (noBareListS n && noBareListL pre) = true from hn)
      rw [Bool.and_eq_true] at h
      exact h
    have h1 := tdStmt_noCrash n s hn2.1
    simp only [List.cons_append, tdStmts]
    rw [andThen_of_none h1, andThen_of_none h1]
    exact ih l rest (tdStmt n s).1 hn2.2

/-- C1: the claim — that `TopDownMunch` and `BottomUpMunch` produce the
same ordered instruction sequence on every type-checked AST accepted
without errors — fails as soon as the AST contains control flow: the
shared `Munch.visit_SWhile` calls `emit(opcode, args, result)`, which
`BottomUpMunch.emit(self, instructions)` rejects with a `TypeError`.  On
`def main() { while (true) { } }` the type checker accepts with zero
diagnostics, the top-down muncher emits five instructions, and the
bottom-up muncher crashes before emitting anything. -/
theorem c1_counterexample :
    (tcGenerate [.SWhile (.EBool true) (.SBlock [])] initState).2 = none ∧
    (tcGenerate [.SWhile (.EBool true) (.SBlock [])] initState).1.diags = [] ∧
    (tdGenerate [.SWhile (.EBool true) (.SBlock [])] initState).2 = none ∧
    (tdGenerate [.SWhile (.EBool true) (.SBlock [])] initState).1.instrs =
      [mkLabel ".start_while0", mkConst 1 "%0", mkJz "%0" ".end_while1",
        mkJmp ".start_while0", mkLabel ".end_while1"] ∧
    (buGenerate [.SWhile (.EBool true) (.SBlock [])] initState).2 =
      some .typeError ∧
    (buGenerate [.SWhile (.EBool true) (.SBlock [])] initState).1.instrs ≠
      (tdGenerate [.SWhile (.EBool true) (.SBlock [])] initState).1.instrs := by
  refine ⟨by decide, by decide, by decide, by decide, by decide, by decide⟩

/-- C1 (amended): for every type-checked AST accepted without errors that
contains no while, if/else, break or continue statements and no bare
nested-block list, the top-down and the bottom-up muncher, each started
from fresh counters, complete without crashing and produce the same
ordered instruction sequence. -/
theorem c1_straightline_equivalence (prog : List Node)
    (hacc : (tcGenerate prog initState).2 = none ∧
      (tcGenerate prog initState).1.diags = [])
    (hsl : straightLineL prog = true) :
    (tdGenerate prog initState).2 = none ∧
    (buGenerate prog initState).2 = none ∧
    (tdGenerate prog initState).1.instrs =
      (buGenerate prog initState).1.instrs := by
  obtain ⟨h1, h2, h3, ⟨d, hdT, hdB⟩⟩ :=
    stmtsSim prog initState initState (agr_refl initState) hsl
  exact ⟨h1, h2, by rw [show tdGenerate prog initState = tdStmts prog initState
    from rfl, show buGenerate prog initState = buStmts prog initState from rfl,
    hdT, hdB]⟩

theorem c1_witness :
    ((tcGenerate [.SVarDecl "x" "int" (.ENum 1), .SPrint (.EVar "x")]
        initState).2 = none ∧
      (tcGenerate [.SVarDecl "x" "int" (.ENum 1), .SPrint (.EVar "x")]
        initState).1.diags = []) ∧
    straightLineL [.SVarDecl "x" "int" (.ENum 1), .SPrint (.EVar "x")] = true ∧
    ((tdGenerate [.SVarDecl "x" "int" (.ENum 1), .SPrint (.EVar "x")]
        initState).2 = none ∧
      (buGenerate [.SVarDecl "x" "int" (.ENum 1), .SPrint (.EVar "x")]
        initState).2 = none ∧
      (tdGenerate [.SVarDecl "x" "int" (.ENum 1), .SPrint (.EVar "x")]
        initState).1.instrs =
        (buGenerate [.SVarDecl "x" "int" (.ENum 1), .SPrint (.EVar "x")]
          initState).1.instrs) :=
  ⟨⟨by decide, by decide⟩, by decide,
    c1_straightline_equivalence
      [.SVarDecl "x" "int" (.ENum 1), .SPrint (.EVar "x")]
      ⟨by decide, by decide⟩ (by decide)⟩

/-- C2: the emission order of the claim holds — fresh start label, the
condition's code, a jump-if-zero on the condition's temporary to the
fresh end label, the body's code, the jump back, the end label — but the
`(start, end)` pair pushed onto the loop-context stack is NEVER popped:
`Munch.visit_SWhile` has no pop, so after the visit the stack still
carries the pair (plus whatever the body pushed) on top of its old
value. -/
theorem c2_counterexample :
    (tdStmt (.SWhile (.EBool true) (.SBlock [])) initState).1.loops ≠
      initState.loops ∧
    (tdStmt (.SWhile (.EBool true) (.SBlock [])) initState).1.loops =
      [(".start_while0", ".end_while1")] := by
  refine ⟨by decide, by decide⟩

/-- C2 (amended): lowering `while (c) body` from any state emits, in
order, the fresh start label, the condition's instructions, a
jump-if-zero on the condition's temporary to the fresh end label, the
body's instructions, the jump back to the start label and the end label;
the `(start, end)` pair is pushed for the body's benefit but never
popped, so the final loop stack is the pushed pair on top of the prior
stack (below anything the body itself left behind). -/
theorem c2_while_emission (c : Expr) (b : Node) (s : MState)
    (hb : noBareListS b = true) :
    ∃ condTemp condCode bodyCode extra,
      (tdStmt (.SWhile c b) s).2 = none ∧
      (tdStmt (.SWhile c b) s).1.instrs =
        s.instrs ++ [mkLabel (labelName "start_while" s.labels)] ++ condCode ++
          [mkJz condTemp (labelName "end_while" (s.labels + 1))] ++ bodyCode ++
          [mkJmp (labelName "start_while" s.labels),
            mkLabel (labelName "end_while" (s.labels + 1))] ∧
      (tdStmt (.SWhile c b) s).1.loops =
        extra ++ [(labelName "start_while" s.labels,
          labelName "end_while" (s.labels + 1))] ++ s.loops := by
  simp only [tdStmt]
  set S1 := emit1 { (freshLabel "end_while" (freshLabel "start_while" s).2).2
      with loops := ((freshLabel "start_while" s).1,
        (freshLabel "end_while" (freshLabel "start_while" s).2).1) ::
        (freshLabel "end_while" (freshLabel "start_while" s).2).2.loops }
    (mkLabel (freshLabel "start_while" s).1) with hS1
  set RC := tdExpr c S1 with hRC
  set S3 := emit1 RC.2 (mkJz RC.1
    (freshLabel "end_while" (freshLabel "start_while" s).2).1) with hS3
  have hcrash := tdStmt_noCrash b S3 hb
  rw [andThen_of_none hcrash]
  obtain ⟨⟨db, hdb⟩, ⟨lb, hlb⟩⟩ := tdStmt_ext b S3
  refine ⟨RC.1, (buExprRaw c S1).1.2, db, lb, by trivial, ?_, ?_⟩
  · simp only [emitL_instrs, hdb, hS3, emit1_instrs, hRC, tdExpr_instrs, hS1]
    simp [List.append_assoc]
  · simp only [emitL_loops, hlb, hS3, emit1_loops, hRC, tdExpr_loops, hS1]
    simp [List.append_assoc]

theorem c2_witness :
    noBareListS (.SBlock []) = true ∧
    (∃ condTemp condCode bodyCode extra,
      (tdStmt (.SWhile (.EBool true) (.SBlock [])) initState).2 = none ∧
      (tdStmt (.SWhile (.EBool true) (.SBlock [])) initState).1.instrs =
        initState.instrs ++
          [mkLabel (labelName "start_while" initState.labels)] ++ condCode ++
          [mkJz condTemp (labelName "end_while" (initState.labels + 1))] ++
          bodyCode ++
          [mkJmp (labelName "start_while" initState.labels),
            mkLabel (labelName "end_while" (initState.labels + 1))] ∧
      (tdStmt (.SWhile (.EBool true) (.SBlock [])) initState).1.loops =
        extra ++ [(labelName "start_while" initState.labels,
          labelName "end_while" (initState.labels + 1))] ++ initState.loops) :=
  ⟨by decide, c2_while_emission (.EBool true) (.SBlock []) initState (by decide)⟩

/-- C3: the boolean-not lowering has its two constants swapped, so it
computes the identity (boolean coercion) instead of logical negation.
For `!true` (operand temporary `%0` holding 1) the emitted fragment is
`const 0 -> %1; jz %0 .end_not0; const 1 -> %1; label .end_not0`, and
executing it leaves the result temporary `%1` holding 1, where the claim
requires 0; for `!false` it leaves 0 where the claim requires 1.  Both
munchers emit the same (wrong) fragment. -/
theorem c3_boolean_not_swapped :
    (tdExpr (.EUnOp "boolean-not" (.EBool true)) initState).1 = "%1" ∧
    (tdExpr (.EUnOp "boolean-not" (.EBool true)) initState).2.instrs =
      [mkConst 1 "%0", mkConst 0 "%1", mkJz "%0" ".end_not0",
        mkConst 1 "%1", mkLabel ".end_not0"] ∧
    (buExprRaw (.EUnOp "boolean-not" (.EBool true)) initState).1.2 =
      [mkConst 1 "%0", mkConst 0 "%1", mkJz "%0" ".end_not0",
        mkConst 1 "%1", mkLabel ".end_not0"] ∧
    (runTac [mkConst 1 "%0", mkConst 0 "%1", mkJz "%0" ".end_not0",
        mkConst 1 "%1", mkLabel ".end_not0"]).map
      (fun env => lookupEnv env "%1") = some 1 ∧
    (tdExpr (.EUnOp "boolean-not" (.EBool false)) initState).2.instrs =
      [mkConst 0 "%0", mkConst 0 "%1", mkJz "%0" ".end_not0",
        mkConst 1 "%1", mkLabel ".end_not0"] ∧
    (runTac [mkConst 0 "%0", mkConst 0 "%1", mkJz "%0" ".end_not0",
        mkConst 1 "%1", mkLabel ".end_not0"]).map
      (fun env => lookupEnv env "%1") = some 0 := by
  refine ⟨by decide, by decide, by decide, by decide, by decide, by decide⟩

/-- C4: for `a && b` both munchers emit, in order: two fresh temporaries
initialized to constant 1, a's instructions, a copy of a's value into the
first temporary, a jump-if-zero on that temporary to the fresh end label,
b's instructions, a copy of b's value into the second temporary, the end
label, and an AND of the two temporaries into the first as final result —
so every instruction computing b sits strictly between the jump-if-zero
and its target label; symmetrically with constant 0, jump-if-nonzero and
OR for `a || b`. -/
theorem c4_short_circuit_shape (a b : Expr) (s : MState) :
    (∃ aT bT aCode bCode,
      (tdExpr (.EBinOp "boolean-and" a b) s).1 = tempName s.temps ∧
      (buExprRaw (.EBinOp "boolean-and" a b) s).1.1 = tempName s.temps ∧
      (tdExpr (.EBinOp "boolean-and" a b) s).2.instrs =
        s.instrs ++ (buExprRaw (.EBinOp "boolean-and" a b) s).1.2 ∧
      (buExprRaw (.EBinOp "boolean-and" a b) s).1.2 =
        [mkConst 1 (tempName s.temps), mkConst 1 (tempName (s.temps + 1))] ++
        aCode ++ [mkCopy aT (tempName s.temps),
          mkJz (tempName s.temps) (labelName "end_and" s.labels)] ++
        bCode ++ [mkCopy bT (tempName (s.temps + 1)),
          mkLabel (labelName "end_and" s.labels),
          mkBin "and" (tempName s.temps) (tempName (s.temps + 1))
            (tempName s.temps)]) ∧
    (∃ aT bT aCode bCode,
      (tdExpr (.EBinOp "boolean-or" a b) s).1 = tempName s.temps ∧
      (buExprRaw (.EBinOp "boolean-or" a b) s).1.1 = tempName s.temps ∧
      (tdExpr (.EBinOp "boolean-or" a b) s).2.instrs =
        s.instrs ++ (buExprRaw (.EBinOp "boolean-or" a b) s).1.2 ∧
      (buExprRaw (.EBinOp "boolean-or" a b) s).1.2 =
        [mkConst 0 (tempName s.temps), mkConst 0 (tempName (s.temps + 1))] ++
        aCode ++ [mkCopy aT (tempName s.temps),
          mkJnz (tempName s.temps) (labelName "end_or" s.labels)] ++
        bCode ++ [mkCopy bT (tempName (s.temps + 1)),
          mkLabel (labelName "end_or" s.labels),
          mkBin "or" (tempName s.temps) (tempName (s.temps + 1))
            (tempName s.temps)]) := by
  constructor
  · refine ⟨(buExprRaw a (freshLabel "end_and" (newTemp (newTemp s).2).2).2).1.1,
      (buExprRaw b (buWrapE (exprName a) (buExprRaw a
        (freshLabel "end_and" (newTemp (newTemp s).2).2).2)).2).1.1,
      (buExprRaw a (freshLabel "end_and" (newTemp (newTemp s).2).2).2).1.2,
      (buExprRaw b (buWrapE (exprName a) (buExprRaw a
        (freshLabel "end_and" (newTemp (newTemp s).2).2).2)).2).1.2,
      ?_, ?_, ?_, ?_⟩
    · have h := (exprSim (.EBinOp "boolean-and" a b) s s (agr_refl s)).1
      rw [h]
      simp [buExprRaw, String.reduceEq, reduceIte]
    · simp [buExprRaw, String.reduceEq, reduceIte]
    · exact (exprSim (.EBinOp "boolean-and" a b) s s (agr_refl s)).2.1
    · simp [buExprRaw, String.reduceEq, reduceIte, buWrapE_fst,
        List.append_assoc]
  · refine ⟨(buExprRaw a (freshLabel "end_or" (newTemp (newTemp s).2).2).2).1.1,
      (buExprRaw b (buWrapE (exprName a) (buExprRaw a
        (freshLabel "end_or" (newTemp (newTemp s).2).2).2)).2).1.1,
      (buExprRaw a (freshLabel "end_or" (newTemp (newTemp s).2).2).2).1.2,
      (buExprRaw b (buWrapE (exprName a) (buExprRaw a
        (freshLabel "end_or" (newTemp (newTemp s).2).2).2)).2).1.2,
      ?_, ?_, ?_, ?_⟩
    · have h := (exprSim (.EBinOp "boolean-or" a b) s s (agr_refl s)).1
      rw [h]
      simp [buExprRaw, String.reduceEq, reduceIte]
    · simp [buExprRaw, String.reduceEq, reduceIte]
    · exact (exprSim (.EBinOp "boolean-or" a b) s s (agr_refl s)).2.1
    · simp [buExprRaw, String.reduceEq, reduceIte, buWrapE_fst,
        List.append_assoc]

/-- C5: the shadowing program
`{ var x = 1:int; { var x = 2:int; print(x); } print(x); }` is NOT
accepted with zero diagnostics: the parser's flat `self.names` dict (one
per file, never scoped) reports one "Double declare" for the inner `x`,
and because the bare nested block is a raw Python list, the type-check
traversal dispatches on a `list`, reaches `generic_visit` and dies with
an `AttributeError` (before reporting anything), as does the lowering
muncher — no two print instructions are ever produced. -/
theorem c5_shadowing_bug :
    parserDoubleDeclCount (declsOfL c5prog) = 1 ∧
    (tcGenerate c5prog initState).2 = some .attributeError ∧
    (tcGenerate c5prog initState).1.diags = [] ∧
    (tdGenerate c5prog initState).2 = some .attributeError ∧
    (tdGenerate c5prog initState).1.instrs =
      [mkConst 1 "%1", mkCopy "%1" "%0"] := by
  refine ⟨by decide, by decide, by decide, by decide, by decide⟩

/-- C6: keyword recognition is indeed a closed set applied after general
identifier matching, but the set contains only `def`, `int`, `main`,
`print` and `var`.  The remaining grammar-surface keywords — `if`,
`else`, `while`, `break`, `continue`, `bool`, `true`, `false` — are NOT
in `Lexer.keywords`, so the lexer classifies them as plain `IDENT`
tokens, never as the keyword tokens the grammar references. -/
theorem c6_keyword_set_bug :
    identTokenType "def" = "DEF" ∧ identTokenType "main" = "MAIN" ∧
    identTokenType "var" = "VAR" ∧ identTokenType "print" = "PRINT" ∧
    identTokenType "int" = "INT" ∧
    identTokenType "if" = "IDENT" ∧ identTokenType "else" = "IDENT" ∧
    identTokenType "while" = "IDENT" ∧ identTokenType "break" = "IDENT" ∧
    identTokenType "continue" = "IDENT" ∧ identTokenType "bool" = "IDENT" ∧
    identTokenType "true" = "IDENT" ∧ identTokenType "false" = "IDENT" ∧
    ¬(∀ k ∈ grammarSurfaceKeywords, (lexerKeywords.lookup k).isSome = true) := by
  refine ⟨by decide, by decide, by decide, by decide, by decide, by decide,
    by decide, by decide, by decide, by decide, by decide, by decide,
    by decide, by decide⟩

/-- C7: lowering a Break or Continue while the loop-context stack is
empty reports exactly one break/continue-outside-loop diagnostic, emits
no instruction, and does not abort — the traversal continues with the
next statement.  Concretely, for `{ break; }` the type-check pass (which
inherits the same visitor) reports exactly one such diagnostic — a
failing status, since the driver gates on a nonzero error count — and
the lowering muncher emits no instruction for the break. -/
theorem c7_break_continue_outside_loop (s : MState) (rest : List Node)
    (h : s.loops = []) :
    tdStmt .SBreak s = (report s .breakOutsideLoop, none) ∧
    tdStmt .SContinue s = (report s .continueOutsideLoop, none) ∧
    (report s .breakOutsideLoop).instrs = s.instrs ∧
    countBOC (report s .breakOutsideLoop).diags = countBOC s.diags + 1 ∧
    tdStmts (.SBreak :: rest) s = tdStmts rest (report s .breakOutsideLoop) ∧
    (tcGenerate [.SBreak] initState).1.diags = [.breakOutsideLoop] ∧
    (tcGenerate [.SBreak] initState).2 = none ∧
    tdGenerate [.SBreak] initState =
      ({ initState with diags := [.breakOutsideLoop] }, none) ∧
    countBOC (tdGenerate [.SBreak] initState).1.diags = 1 ∧
    (tdGenerate [.SBreak] initState).1.instrs = [] := by
  refine ⟨?_, ?_, rfl, ?_, ?_, by decide, by decide, by decide, by decide,
    by decide⟩
  · simp [tdStmt, h]
  · simp [tdStmt, h]
  · simp [countBOC]
  · simp only [tdStmts]
    rw [show tdStmt .SBreak s = (report s .breakOutsideLoop, none) from by
      simp [tdStmt, h]]
    rfl

theorem c7_witness :
    initState.loops = [] ∧
    (tdStmt .SBreak initState = (report initState .breakOutsideLoop, none) ∧
      tdStmt .SContinue initState =
        (report initState .continueOutsideLoop, none) ∧
      (report initState .breakOutsideLoop).instrs = initState.instrs ∧
      countBOC (report initState .breakOutsideLoop).diags =
        countBOC initState.diags + 1 ∧
      tdStmts (.SBreak :: []) initState =
        tdStmts [] (report initState .breakOutsideLoop) ∧
      (tcGenerate [.SBreak] initState).1.diags = [.breakOutsideLoop] ∧
      (tcGenerate [.SBreak] initState).2 = none ∧
      tdGenerate [.SBreak] initState =
        ({ initState with diags := [.breakOutsideLoop] }, none) ∧
      countBOC (tdGenerate [.SBreak] initState).1.diags = 1 ∧
      (tdGenerate [.SBreak] initState).1.instrs = []) :=
  ⟨by decide, c7_break_continue_outside_loop initState [] (by decide)⟩

/-- C8: the docstring grammar of `Parser.p_expr_parens` is
`expr : LPAREN expr LPAREN` — its closing terminal is the token of `(`,
not of `)`.  So the token shape of `( e )` does not match the
production, while the malformed `( e (` does; the semantic action
`p[0] = p[2]` would indeed return the inner expression unchanged. -/
theorem c8_parens_rule_bug :
    pExprParensSymbols = ["LPAREN", "expr", "LPAREN"] ∧
    punctToken "(" = "LPAREN" ∧ punctToken ")" = "RPAREN" ∧
    matchesParensRule ["LPAREN", "expr", punctToken ")"] = false ∧
    matchesParensRule ["LPAREN", "expr", punctToken "("] = true ∧
    pExprParensSymbols.getLast? ≠ some "RPAREN" ∧
    (∀ e : Expr, pExprParensAction e = e) := by
  refine ⟨by decide, by decide, by decide, by decide, by decide, by decide,
    fun e => rfl⟩

/-- C9: the claim — that every bottom-up expression visit returns a
non-empty local list, so the empty-list validation never fires on a
well-formed type-checked AST — fails: on
`{ var x = 1:int; print(x); }`, which type-checks with zero diagnostics,
the validation fires three times (once for the variable reference, once
per completed statement visit, since statement visitors return `None`,
coerced to `(None, [])`). -/
theorem c9_counterexample :
    (tcGenerate [.SVarDecl "x" "int" (.ENum 1), .SPrint (.EVar "x")]
      initState).2 = none ∧
    (tcGenerate [.SVarDecl "x" "int" (.ENum 1), .SPrint (.EVar "x")]
      initState).1.diags = [] ∧
    (buGenerate [.SVarDecl "x" "int" (.ENum 1), .SPrint (.EVar "x")]
      initState).2 = none ∧
    countNoInstr (buGenerate [.SVarDecl "x" "int" (.ENum 1),
      .SPrint (.EVar "x")] initState).1.diags = 3 ∧
    (buGenerate [.SVarDecl "x" "int" (.ENum 1), .SPrint (.EVar "x")]
      initState).1.diags =
      [.noInstrFor "SVarDecl", .noInstrFor "EVar", .noInstrFor "SPrint"] := by
  refine ⟨by decide, by decide, by decide, by decide, by decide⟩

/-- C9 (amended): a bottom-up expression visit returns an empty local
list exactly when the expression is a (possibly parenthesized) variable
reference — so the validation fires on every variable reference and
never on any other expression — and every statement visit that completes
returns no list, so the `visit` wrapper appends one empty-list
diagnostic for the statement itself. -/
theorem c9_empty_list_validation :
    (∀ (e : Expr) (s : MState),
      ((buExprRaw e s).1.2).isEmpty = isVarCore e) ∧
    (∀ (n : Node) (s : MState), (buStmtRaw n s).2 = none →
      buVisitS n s =
        (report (buStmtRaw n s).1 (.noInstrFor (nodeName n)), none)) := by
  constructor
  · exact fun e s => buLocal_isEmpty e s
  · intro n s h
    simp only [buVisitS]
    rw [andThen_of_none h]

theorem c9_witness :
    (((buExprRaw (.EVar "x") initState).1.2).isEmpty =
      isVarCore (.EVar "x")) ∧
    ((buStmtRaw (.SPrint (.ENum 1)) initState).2 = none ∧
      buVisitS (.SPrint (.ENum 1)) initState =
        (report (buStmtRaw (.SPrint (.ENum 1)) initState).1
          (.noInstrFor (nodeName (.SPrint (.ENum 1)))), none)) :=
  ⟨c9_empty_list_validation.1 (.EVar "x") initState,
    ⟨by decide, c9_empty_list_validation.2 (.SPrint (.ENum 1)) initState
      (by decide)⟩⟩

/-- C10: the claim is right that blocks are plain lists, that
`generate_code` iterates the top-level list with no scope push or pop,
and that a bare nested-block statement sends a raw list into the visitor
dispatch, which falls through to `generic_visit` — but the handler then
crashes with an `AttributeError` while building the diagnostic (a Python
`list` has no `position` attribute), so NO diagnostic is reported and
`exit(1)` is never reached. -/
theorem c10_counterexample :
    tdGenerate [.NList []] initState = (initState, some .attributeError) ∧
    (tdGenerate [.NList []] initState).1.diags = [] ∧
    (tdGenerate [.NList []] initState).2 ≠ some .exitOne := by
  refine ⟨by decide, by decide, by decide⟩

/-- C10 (amended): visiting a raw-list statement leaves the state
untouched (no diagnostic) and aborts the process with an
`AttributeError`; hence for any top-level statement list whose prefix is
free of raw lists, `generate_code` processes the prefix and then dies at
the bare nested block, with exactly the prefix's diagnostics reported
and nothing after the list processed. -/
theorem c10_bare_block_crash (pre l rest : List Node) (s : MState)
    (hpre : noBareListL pre = true) :
    tdStmt (.NList l) s = (s, some .attributeError) ∧
    tdGenerate (pre ++ .NList l :: rest) s =
      ((tdStmts pre s).1, some .attributeError) := by
  exact ⟨rfl, tdStmts_bareList pre l rest s hpre⟩

theorem c10_witness :
    noBareListL [.SPrint (.ENum 1)] = true ∧
    (tdStmt (.NList []) initState = (initState, some .attributeError) ∧
      tdGenerate ([.SPrint (.ENum 1)] ++ .NList [] :: []) initState =
        ((tdStmts [.SPrint (.ENum 1)] initState).1, some .attributeError)) :=
  ⟨by decide, c10_bare_block_crash [.SPrint (.ENum 1)] [] [] initState
    (by decide)⟩

end Bxc